import Mathlib

/-!
Verification development for the Discord-Chat-Forwarder repository.

The repository contains two generations of the same export+forward pipeline:
  * `Loop_Forward/` : `orchestrate_one.py` (window scheduler) driving
    `forward_loop.py` (normalizer + forwarding engine, dedupe, identity map);
  * `Forward_Once/` : `forward_once.py` (normalizer + forwarding engine with
    a retrying delivery layer) and `export_once.py`.

Everything below is a shallow embedding of those Python scripts:
  * Python strings are Lean `String` (Python `len`/slicing count code points,
    as does Lean's `String.length`/`String.take` on `Char`s);
  * Python truthiness of strings/lists/dicts/ints is modelled explicitly
    (`pyOrS`, `truthy`, `firstTruthyO`, ...);
  * JSON records are structures whose fields are `Option` types (a `none`
    field models an absent or `null` key);
  * the network is an oracle (`Net`): `headSize url` is the Content-Length
    obtained by a successful HEAD (`none` = exception / non-2xx status),
    `fetchLen url` the byte length of a successful GET (`none` = exception or
    non-2xx), and `post k` the outcome of the k-th webhook POST of a run
    (`.error` = transport exception was raised, `.ok oid` = a response whose
    JSON body yields the message id `oid`, `oid = none` when the body has no
    parsable id, e.g. a non-success response);
  * attachment byte strings are modelled by their length (the scripts only
    ever measure `len(content)` and pass the bytes through to the form);
  * instants (scheduler) are integers in microseconds since the epoch;
  * `time.sleep` durations (delivery layer) are rationals, recorded in a
    trace instead of actually sleeping.
-/

namespace DCF

/-! ### Python-semantics helpers -/

/-- Python `a or b` for strings (`""` is falsy). -/
def pyOrS (a b : String) : String := if a = "" then b else a

/-- Truthiness of an optional string: `none` (absent / `None`) and `""` are falsy. -/
def truthy (o : Option String) : Bool :=
  match o with
  | none => false
  | some s => !(s == "")

/-- Python `a or b` on optional strings (used for `x.get(k) or y.get(k)` chains). -/
def pyOrO (a b : Option String) : Option String := if truthy a then a else b

/-- First truthy value of a chain `a or b or ... or None`. -/
def firstTruthyO : List (Option String) → Option String
  | [] => none
  | o :: rest => if truthy o then o else firstTruthyO rest

/-- Chain `a or b or ... or d` ending in a string default. -/
def firstTruthyS (l : List (Option String)) (d : String) : String :=
  match firstTruthyO l with
  | some s => s
  | none => d

/-- `x or d` where `x` is an optional string and `d` a default (falsy `x` gives `d`). -/
def strOr (o : Option String) (d : String) : String :=
  match o with
  | none => d
  | some s => if s = "" then d else s

/-- First truthy value of a chain of optional ints ending in a default (`0` is falsy). -/
def firstTruthyN : List (Option Nat) → Nat → Nat
  | [], d => d
  | o :: rest, d =>
    match o with
    | some n => if n ≠ 0 then n else firstTruthyN rest d
    | none => firstTruthyN rest d

/-- Python `str(x)` on an optional value that may be `None`. -/
def pyStr (o : Option String) : String :=
  match o with
  | none => "None"
  | some s => s

/-- Characters stripped by Python `str.strip()` (ASCII fragment; the scripts
only ever strip ASCII content built by themselves). -/
def isSpaceChar (c : Char) : Bool :=
  c == ' ' || c == '\t' || c == '\n' || c == '\r' || c == '\x0b' || c == '\x0c'

/-- Python `str.strip()`. -/
def pyStrip (s : String) : String :=
  ⟨((s.data.dropWhile isSpaceChar).reverse.dropWhile isSpaceChar).reverse⟩

/-- `first_n` (both scripts): `(s[:n] + "…") if len(s) > n else s`. -/
def firstN (s : String) (n : Nat) : String :=
  if n < s.length then s.take n ++ "…" else s

/-- Slicing loop with an explicit structural bound (`fuel` is an upper bound
on the list length, so the `fuel = 0, l ≠ []` case is never reached). -/
def sliceListF (n : Nat) : Nat → List α → List (List α)
  | _, [] => []
  | 0, _ :: _ => []
  | fuel + 1, x :: xs => (x :: xs.take (n - 1)) :: sliceListF n fuel (xs.drop (n - 1))

/-- Common core of `chunk_text` and `batch_list`: consecutive slices
`l[i:i+n]` for `i = 0, n, 2n, ...`.  Faithful to the Python loops for
`n ≥ 1`; the Python originals do not terminate (or raise) for `n = 0`. -/
def sliceList (n : Nat) (l : List α) : List (List α) := sliceListF n l.length l

/-- `chunk_text(s, limit)` (identical in `forward_loop.py` and
`forward_once.py`): `[""]` for empty input, else slices of `limit` chars. -/
def chunkText (s : String) (limit : Nat) : List String :=
  if s = "" then [""] else (sliceList limit s.data).map (fun l => ⟨l⟩)

/-- `batch_list(lst, n)` (`forward_loop.py`): `[lst[i:i+n] for i in range(0, len(lst), n)]`. -/
def batchList (l : List α) (n : Nat) : List (List α) := sliceList n l

/-- `os.path.basename` on a URL (posix separator). -/
def basename (s : String) : String := (s.splitOn "/").getLastD ""

/-- Python `<` on strings: lexicographic by code point. -/
def charListLt : List Char → List Char → Bool
  | [], [] => false
  | [], _ :: _ => true
  | _ :: _, [] => false
  | a :: as, b :: bs => if a < b then true else if b < a then false else charListLt as bs

def strLtB (a b : String) : Bool := charListLt a.data b.data

/-- Python `<=` on strings. -/
def strLeB (a b : String) : Bool := strLtB a b || a.data == b.data

/-- Python `<=` on `(str, str)` tuples (the comparison `list.sort` performs
on the sort keys). -/
def pairLeB (x y : String × String) : Bool :=
  if strLtB x.1 y.1 then true else if strLtB y.1 x.1 then false else strLeB x.2 y.2

/-! ### Raw exporter records

Shape of one record of a DiscordChatExporter JSON artifact, restricted to the
keys the two scripts actually read.  `Option` models an absent key (or JSON
`null`); all scalar values are strings resp. naturals as the scripts consume
them (`str(...)` is applied by the code right where it matters). -/

structure RawAuthor where
  name : Option String := none
  nickname : Option String := none
  username : Option String := none
  avatarUrl : Option String := none
  avatar_url : Option String := none
  avatar : Option String := none
deriving DecidableEq, Repr

structure RawRef where
  messageId : Option String := none
  message_id : Option String := none
  rid : Option String := none        -- the "id" key
deriving DecidableEq, Repr

structure RawRefMsg where
  rid : Option String := none        -- the "id" key
  author : Option RawAuthor := none
  content : Option String := none
  timestamp : Option String := none
deriving DecidableEq, Repr

structure RawAtt where
  url : Option String := none
  urlU : Option String := none       -- the "Url" key (forward_once)
  proxyUrl : Option String := none
  proxy_url : Option String := none
  fileName : Option String := none
  filename : Option String := none
  contentType : Option String := none
  content_type : Option String := none
  typ : Option String := none        -- the "type" key (forward_once)
  size : Option Nat := none
  fileSize : Option Nat := none
deriving DecidableEq, Repr

structure RawMsg where
  id : Option String := none
  timestamp : Option String := none
  timestampU : Option String := none      -- "Timestamp"
  timestampISO : Option String := none
  content : Option String := none
  contentU : Option String := none        -- "Content"
  author : Option RawAuthor := none
  attachments : Option (List RawAtt) := none
  attachmentsU : Option (List RawAtt) := none   -- "Attachments"
  embeds : Option (List String) := none   -- opaque JSON blobs (always dumpable)
  reference : Option RawRef := none
  referencedMessage : Option RawRefMsg := none
  repliesTo : Option RawRef := none
  replies_to : Option RawRef := none
  url : Option String := none
  jumpUrl : Option String := none
deriving DecidableEq, Repr

/-- `extract_reply_reference` (identical in both scripts): try the
`reference` object, then `referencedMessage`, then `repliesTo`/`replies_to`. -/
def extractReplyReference (msg : RawMsg) : Option String :=
  let s1 : Option String :=
    match msg.reference with
    | some r => firstTruthyO [r.messageId, r.message_id, r.rid]
    | none => none
  match s1 with
  | some m => some m
  | none =>
    let s2 : Option String :=
      match msg.referencedMessage with
      | some r => if truthy r.rid then r.rid else none
      | none => none
    match s2 with
    | some m => some m
    | none =>
      match (match msg.repliesTo with | some r => some r | none => msg.replies_to) with
      | some r2 => if truthy r2.rid then r2.rid else none
      | none => none

namespace FL
/-! ### `Loop_Forward/forward_loop.py` — normalizer -/

/-- `ref_preview` snapshot built by `normalize_message`. -/
structure Preview where
  pid : Option String
  author : String
  content : String
  timestamp : Option String
deriving DecidableEq, Repr

structure NAtt where
  url : String
  filename : String
  content_type : String
  size_hint : Nat
deriving DecidableEq, Repr

structure NMsg where
  id : String
  timestamp : Option String
  content : String
  username : String
  avatar_url : Option String
  attachments : List NAtt
  embeds : List String
  reply_to_id : Option String
  reply_preview : Option Preview
  jump_url : Option String
deriving DecidableEq, Repr

/-- `normalize_message` (`forward_loop.py` lines 135-185). -/
def normalizeMessage (msg : RawMsg) : NMsg :=
  let author := msg.author.getD {}
  let refPreview : Option Preview :=
    match msg.referencedMessage with
    | some refmsg =>
      let rauthor := refmsg.author.getD {}
      some { pid := if truthy refmsg.rid then some (pyStr refmsg.rid) else none,
             author := firstTruthyS [rauthor.nickname, rauthor.name] "Unknown",
             content := firstN (pyStrip (strOr refmsg.content "")) 180,
             timestamp := refmsg.timestamp }
    | none => none
  { id := pyStr msg.id,
    timestamp := msg.timestamp,
    content := strOr msg.content "",
    username := (firstTruthyS [author.nickname, author.name, author.username] "Unknown").take 80,
    avatar_url := firstTruthyO [author.avatarUrl, author.avatar_url],
    attachments :=
      (msg.attachments.getD []).filterMap (fun a =>
        match firstTruthyO [a.url, a.proxy_url] with
        | none => none
        | some u =>
          some { url := u,
                 filename := firstTruthyS [a.fileName, a.filename] (basename u),
                 content_type := firstTruthyS [a.contentType, a.content_type]
                   "application/octet-stream",
                 size_hint := firstTruthyN [a.size, a.fileSize] 0 }),
    embeds := msg.embeds.getD [],
    reply_to_id := extractReplyReference msg,
    reply_preview := refPreview,
    jump_url := firstTruthyO [msg.url, msg.jumpUrl] }

/-- Entry of the `id_index` built by `build_id_index`. -/
structure IdxEntry where
  author : String
  content : String
  timestamp : Option String
deriving DecidableEq, Repr

/-- `author_name` (`forward_loop.py` lines 69-72). -/
def authorName (author : Option RawAuthor) : String :=
  match author with
  | none => "Unknown"
  | some a => firstTruthyS [a.nickname, a.name, a.username] "Unknown"

/-- dict assignment `d[k] = v` on an association list (overwrite in place,
append otherwise — CPython dict insertion-order semantics). -/
def dictSet (d : List (String × α)) (k : String) (v : α) : List (String × α) :=
  if d.any (fun kv => kv.1 == k) then
    d.map (fun kv => if kv.1 == k then (k, v) else kv)
  else d ++ [(k, v)]

/-- `build_id_index` (`forward_loop.py` lines 74-89): raw-message id →
(author, stripped content, timestamp), skipping records with falsy id. -/
def buildIdIndex (msgs : List RawMsg) : List (String × IdxEntry) :=
  msgs.foldl (fun idx m =>
    let mid := strOr m.id ""
    if mid = "" then idx
    else dictSet idx mid
      { author := authorName (some (m.author.getD {})),
        content := pyStrip (strOr m.content ""),
        timestamp := m.timestamp }) []

/-- Sort key of `forward_loop.py` line 413: `(m.get("timestamp") or "", m["id"])`. -/
def msgKey (m : NMsg) : String × String := (strOr m.timestamp "", m.id)

/-- Python tuple `<=` on the sort keys (lexicographic over code-point string order). -/
def keyLe (a b : NMsg) : Bool := pairLeB (msgKey a) (msgKey b)

/-- `forward_loop.py` lines 412-413: drop records with falsy `id`, normalize,
then stable-sort ascending by `(timestamp or "", id)` (Python's `list.sort` is
a stable sort; `List.mergeSort` is the stable sort with the same key order). -/
def normalizedOf (raws : List RawMsg) : List NMsg :=
  ((raws.filter (fun m => truthy m.id)).map normalizeMessage).mergeSort keyLe

end FL

namespace FO
/-! ### `Forward_Once/forward_once.py` — normalizer -/

/-- `sanitize_filename` (`forward_once.py` lines 72-80).  Windows-forbidden and
control characters become `_`; names longer than 180 chars are clipped to
`base[:170] + "~" + ext[:9]` using `os.path.splitext`. -/
def forbiddenChar (c : Char) : Bool :=
  c == '\\' || c == '/' || c == ':' || c == '*' || c == '?' || c == '"' ||
  c == '<' || c == '>' || c == '|' || decide (c.val ≤ 0x1F)

/-- `os.path.splitext` (posix): split at the last dot that has a non-dot
character somewhere before it in the name. -/
def splitext (s : String) : String × String :=
  let cs := s.data
  let idxs := (List.range cs.length).filter (fun i =>
    cs.getD i ' ' == '.' ∧ ((List.range i).any (fun j => !(cs.getD j ' ' == '.'))))
  match idxs.getLast? with
  | none => (s, "")
  | some i => (⟨cs.take i⟩, ⟨cs.drop i⟩)

def sanitizeFilename (fn0 : String) : String :=
  let fn1 : String := ⟨(pyOrS fn0 "file").data.map (fun c => if forbiddenChar c then '_' else c)⟩
  let fn2 : String :=
    if 180 < fn1.length then
      let (base, ext) := splitext fn1
      base.take 170 ++ "~" ++ ext.take 9
    else fn1
  if fn2 = "" then "file" else fn2

structure NAtt where
  url : String
  filename : String
  content_type : Option String
  size_hint : Nat
deriving DecidableEq, Repr

structure NMsg where
  id : String
  timestamp : String
  content : String
  username : String
  avatar_url : Option String
  attachments : List NAtt
  embeds : List String
  reply_to_id : Option String
  reply_preview : Option String
  jump_url : Option String
deriving DecidableEq, Repr

/-- `clamp_webhook_username`: `(u or "")[:80]`. -/
def clampWebhookUsername (u : String) : String := (pyOrS u "").take 80

/-- Normalization of one record (`forward_once.py` loop body, lines 114-163). -/
def normalizeOne (msg : RawMsg) : NMsg :=
  let author := msg.author.getD {}
  let replyTo := extractReplyReference msg
  { id := strOr msg.id "",
    timestamp := firstTruthyS [msg.timestamp, msg.timestampU, msg.timestampISO] "",
    content := firstTruthyS [msg.content, msg.contentU] "",
    username := clampWebhookUsername (firstTruthyS [author.name, author.username] "Unknown"),
    avatar_url := firstTruthyO [author.avatarUrl, author.avatar],
    attachments :=
      -- `msg.get("attachments") or msg.get("Attachments") or []` (an empty list is falsy)
      ((match msg.attachments with
        | some l => if l = [] then msg.attachmentsU else some l
        | none => msg.attachmentsU).getD []).filterMap (fun (a : RawAtt) =>
        match firstTruthyO [a.url, a.urlU, a.proxyUrl] with
        | none => none
        | some u =>
          some { url := u,
                 filename := sanitizeFilename (firstTruthyS [a.fileName, a.filename] (basename u)),
                 content_type := firstTruthyO [a.contentType, a.typ],
                 size_hint := firstTruthyN [a.size] 0 }),
    embeds := msg.embeds.getD [],
    reply_to_id := replyTo,
    reply_preview :=
      match replyTo with
      | none => none
      | some _ =>
        match msg.referencedMessage with
        | some refMsg =>
          let rauthor := strOr ((refMsg.author.getD {}).name) "Unknown"
          let rcontent := firstN (strOr refMsg.content "") 120
          some ("Replying to " ++ rauthor ++ ": “" ++ rcontent ++ "”")
        | none => none,
    jump_url := firstTruthyO [msg.url, msg.jumpUrl] }

/-- `normalize_export` (`forward_once.py` lines 103-164): a straight map over
the artifact's records — no sorting, and records without a recoverable id are
kept with `id = ""`. -/
def normalizeExport (raws : List RawMsg) : List NMsg := raws.map normalizeOne

end FO

/-! ### Delivery-side observables -/

/-- One delivery payload (`payload_json` / JSON body).  A `message_reference`
is always emitted with `fail_if_not_exists: false`, so only the referenced
`message_id` is recorded. -/
structure Payload where
  content : String
  username : String
  avatar_url : Option String := none
  message_reference : Option String := none
  embeds : List String := []
deriving DecidableEq, Repr

/-- One multipart file part `files[i]` (attachment bytes modelled by length). -/
structure FilePart where
  field : String
  filename : String
  bytes : Nat
  ctype : String
deriving DecidableEq, Repr

/-- One webhook delivery request. -/
structure Request where
  payload : Payload
  files : List FilePart
deriving DecidableEq, Repr

/-- Network oracle (see the header comment). -/
structure Net where
  headSize : String → Option Nat
  fetchLen : String → Option Nat
  post : Nat → Except Unit (Option String)

/-- Result of forwarding one message: the requests sent, the value the
function returns (`.error` = an exception escaped, `.ok v` = normal return
value), and the next post counter. -/
structure FwdRes (β : Type) where
  sent : List Request
  result : Except Unit β
  k : Nat
deriving Repr

/-- An entry of `downloadable_files` / `downloadable`:
`(filename, content, content_type, source_url)` with content as byte length. -/
structure DownFile where
  filename : String
  bytes : Nat
  ctype : String
  url : String
deriving DecidableEq, Repr

/-- `files_form` built from one batch: `(f"files[{idx}]", (fn, content, ctype))`. -/
def mkForm (batch : List DownFile) : List FilePart :=
  batch.enum.map (fun p => { field := "files[" ++ toString p.1 ++ "]",
                             filename := p.2.filename, bytes := p.2.bytes, ctype := p.2.ctype })

namespace FL
/-! ### `forward_loop.py` — forwarding engine -/

/-- `build_payload_base` (`forward_loop.py` lines 120-133).  `json.dumps` on
`embeds` never fails for values that came out of `json.load`, so the
try/except keeps the embeds. -/
def buildPayloadBase (msg : NMsg) : Payload :=
  { content := pyOrS msg.content "",
    username := msg.username,
    avatar_url := if truthy msg.avatar_url then msg.avatar_url else none,
    message_reference := none,
    embeds := if msg.embeds ≠ [] then msg.embeds else [] }

/-- The `> Quote author: "content"` line (`forward_loop.py` line 252). -/
def mkQuoteLine (author content : String) : String :=
  "> Quote " ++ author ++ ": \"" ++ firstN content 180 ++ "\""

/-- The id-index fallback lookup (`forward_loop.py` line 243-249 guard
`id_index and source_parent_id and source_parent_id in id_index` plus
`id_index.get(...)`; a `None` or empty dict, or a falsy parent id, miss). -/
def idIndexHit (idIndex : Option (List (String × IdxEntry))) (p : String) : Option IdxEntry :=
  match idIndex with
  | none => none
  | some l => if l = [] then none else if p = "" then none else l.lookup p

/-- `qp` of `forward_one_message` (`forward_loop.py` lines 241-249):
`message.get("reply_preview") or {}`, with the id-index fallback when the
preview is absent (the looked-up entry is never an empty dict). -/
def qpOf (idIndex : Option (List (String × IdxEntry))) (msg : NMsg) (p : String) :
    Option (String × String) :=
  match msg.reply_preview with
  | some pv => some (pv.author, pv.content)
  | none =>
    match idIndexHit idIndex p with
    | some e => some (pyOrS e.author "Unknown", pyOrS e.content "")
    | none => none

/-- `qp_author = (qp.get("author") or "unknown").strip()` (line 250). -/
def qpAuthorOf (idIndex : Option (List (String × IdxEntry))) (msg : NMsg) (p : String) :
    String :=
  pyStrip (pyOrS (((qpOf idIndex msg p).map Prod.fst).getD "") "unknown")

/-- `qp_content = (qp.get("content") or "").strip()` (line 251). -/
def qpContentOf (idIndex : Option (List (String × IdxEntry))) (msg : NMsg) (p : String) :
    String :=
  pyStrip (pyOrS (((qpOf idIndex msg p).map Prod.snd).getD "") "")

/-- Reply handling of `forward_one_message` (`forward_loop.py` lines 228-256):
native reply when the parent's destination id is known, else a manual quote
line from the reply preview, else from the current batch's id index, else the
generic `> Quote unknown: ""` line. -/
def applyReply (idMap : String → Option String) (idIndex : Option (List (String × IdxEntry)))
    (msg : NMsg) (base : Payload) : Payload :=
  match msg.reply_to_id with
  | none => base
  | some p =>
    -- `if source_parent_id:` — an absent or empty parent id skips the block
    if p = "" then base
    else
      let dest := idMap p
      if truthy dest then
        { base with message_reference := dest }
      else
        let qpLine0 := mkQuoteLine (qpAuthorOf idIndex msg p) (qpContentOf idIndex msg p)
        let qpLine := if truthy msg.jump_url then qpLine0 ++ "\n> " ++ msg.jump_url.getD "" else qpLine0
        let c := pyStrip base.content
        { base with content := pyStrip (qpLine ++ (if c ≠ "" then "\n\n" ++ c else "")) }

/-- Decision for one attachment (`forward_loop.py` lines 261-290):
`.error url` = demoted to link-only, `.ok d` = fetched re-upload candidate. -/
def classifyOne (net : Net) (cap : Nat) (a : NAtt) : Except String DownFile :=
  let ctype := pyOrS a.content_type "application/octet-stream"
  let sizeHint := if a.size_hint ≠ 0 then a.size_hint else (net.headSize a.url).getD 0
  if sizeHint ≠ 0 ∧ cap < sizeHint then .error a.url
  else
    match net.fetchLen a.url with
    | none => .error a.url
    | some n => if cap < n then .error a.url else .ok ⟨a.filename, n, ctype, a.url⟩

/-- The attachment loop: accumulates `downloadable_files` and
`link_only_urls` in attachment order. -/
def classifyAtts (net : Net) (cap : Nat) (atts : List NAtt) : List DownFile × List String :=
  (atts.filterMap (fun a => (classifyOne net cap a).toOption),
   atts.filterMap (fun a =>
     match classifyOne net cap a with
     | .error u => some u
     | .ok _ => none))

/-- The `[Attachment too large] url` line. -/
def mkLinkLine (u : String) : String := "[Attachment too large] " ++ u

/-- `forward_loop.py` lines 292-295: append the link-only summary. -/
def addLinks (links : List String) (c0 : String) : String :=
  if links = [] then c0
  else
    let linksText := String.intercalate "\n" (links.map mkLinkLine)
    let c := pyStrip c0
    pyStrip (c ++ (if c ≠ "" then "\n" else "") ++ linksText)

/-- Payload after reply handling. -/
def replyPayload (idMap : String → Option String) (idIndex : Option (List (String × IdxEntry)))
    (msg : NMsg) : Payload :=
  applyReply idMap idIndex msg (buildPayloadBase msg)

/-- The fully assembled pre-chunk text (`content_full`, line 298). -/
def contentFullOf (net : Net) (cap : Nat) (idMap : String → Option String)
    (idIndex : Option (List (String × IdxEntry))) (msg : NMsg) : String :=
  addLinks (classifyAtts net cap msg.attachments).2 (replyPayload idMap idIndex msg).content

/-- `chunks = chunk_text(content_full, 1900)` (line 299). -/
def chunksOf (net : Net) (cap : Nat) (idMap : String → Option String)
    (idIndex : Option (List (String × IdxEntry))) (msg : NMsg) : List String :=
  chunkText (contentFullOf net cap idMap idIndex msg) 1900

/-- The chained text-part posts (`forward_loop.py` lines 323-335 / 364-376):
each remaining chunk is posted as `"{chunk} (part {idx})"`, threaded onto the
previous post's destination id when one is known. -/
def postChunks (net : Net) (username : String) (avatar : Option String) :
    List String → Nat → Nat → Option String → List Request × Except Unit Unit × Nat
  | [], _idx, k, _prev => ([], .ok (), k)
  | c :: rest, idx, k, prev =>
    let payload : Payload :=
      { content := c ++ " (part " ++ toString idx ++ ")",
        username := username,
        avatar_url := if truthy avatar then avatar else none,
        message_reference := if truthy prev then prev else none,
        embeds := [] }
    let req : Request := ⟨payload, []⟩
    match net.post k with
    | .error _ => ([req], .error (), k + 1)
    | .ok rid =>
      let next := postChunks net username avatar rest (idx + 1) (k + 1) (pyOrO rid prev)
      (req :: next.1, next.2.1, next.2.2)

/-- The follow-up attachment-batch posts (`forward_loop.py` lines 337-355). -/
def postBatches (net : Net) (username : String) (avatar : Option String) (msgId : String)
    (dest : Option String) (total : Nat) :
    List (List DownFile) → Nat → Nat → List Request × Except Unit Unit × Nat
  | [], _bidx, k => ([], .ok (), k)
  | b :: rest, bidx, k =>
    let payload : Payload :=
      { content := "(attachment batch " ++ toString bidx ++ "/" ++ toString total ++
          ") from original message " ++ msgId,
        username := username,
        avatar_url := if truthy avatar then avatar else none,
        message_reference := if truthy dest then dest else none,
        embeds := [] }
    let req : Request := ⟨payload, mkForm b⟩
    match net.post k with
    | .error _ => ([req], .error (), k + 1)
    | .ok _ =>
      let next := postBatches net username avatar msgId dest total rest (bidx + 1) (k + 1)
      (req :: next.1, next.2.1, next.2.2)

/-- `forward_one_message` (`forward_loop.py` lines 210-378).  Returns
`dest_message_id or ""`; an `.error` result models an escaped exception
(a transport error raised by one of the posts). -/
def forwardOneMessage (net : Net) (cap mfp : Nat) (msg : NMsg)
    (idMap : String → Option String) (idIndex : Option (List (String × IdxEntry)))
    (k : Nat) : FwdRes String :=
  let base1 := replyPayload idMap idIndex msg
  let dl := classifyAtts net cap msg.attachments
  let down := dl.1
  let links := dl.2
  let chunks := chunksOf net cap idMap idIndex msg
  let c0 := chunks.headD ""
  let primaryContent :=
    if pyStrip c0 = "" ∧ base1.embeds = [] ∧ down = [] ∧ links = [] then "[no text]" else c0
  let basePayload := { base1 with content := primaryContent }
  if down ≠ [] then
    let req0 : Request := ⟨basePayload, mkForm (down.take mfp)⟩
    match net.post k with
    | .error _ => ⟨[req0], .error (), k + 1⟩
    | .ok rid =>
      let chain := postChunks net msg.username msg.avatar_url chunks.tail 2 (k + 1) rid
      match chain.2.1 with
      | .error _ => ⟨req0 :: chain.1, .error (), chain.2.2⟩
      | .ok _ =>
        let remaining := down.drop mfp
        if remaining ≠ [] then
          let total := (remaining.length + mfp - 1) / mfp
          let bs := postBatches net msg.username msg.avatar_url msg.id rid total
            (batchList remaining mfp) 1 chain.2.2
          ⟨req0 :: chain.1 ++ bs.1,
           match bs.2.1 with
           | .error _ => .error ()
           | .ok _ => .ok ((rid).getD ""), bs.2.2⟩
        else ⟨req0 :: chain.1, .ok ((rid).getD ""), chain.2.2⟩
  else
    let req0 : Request := ⟨basePayload, []⟩
    match net.post k with
    | .error _ => ⟨[req0], .error (), k + 1⟩
    | .ok rid =>
      let chain := postChunks net msg.username msg.avatar_url chunks.tail 2 (k + 1) rid
      match chain.2.1 with
      | .error _ => ⟨req0 :: chain.1, .error (), chain.2.2⟩
      | .ok _ => ⟨req0 :: chain.1, .ok ((rid).getD ""), chain.2.2⟩

/-- The per-message loop of `main` (`forward_loop.py` lines 428-449): skip
ids already in `seen`, forward, mark seen on normal return (recording
`iso_z(now)`), record the id-map entry only for a truthy destination id; an
exception leaves both stores untouched and continues with the next message. -/
def runLoop (net : Net) (nowIso : String) (cap mfp : Nat)
    (idIndex : Option (List (String × IdxEntry))) :
    List NMsg → (String → Option String) → (String → Option String) → Nat → Nat →
    List Request × (String → Option String) × (String → Option String) × Nat × Nat
  | [], seen, idMap, k, sent => ([], seen, idMap, k, sent)
  | m :: rest, seen, idMap, k, sent =>
    if (seen m.id).isSome then runLoop net nowIso cap mfp idIndex rest seen idMap k sent
    else
      let r := forwardOneMessage net cap mfp m idMap idIndex k
      match r.result with
      | .error _ =>
        let next := runLoop net nowIso cap mfp idIndex rest seen idMap r.k sent
        (r.sent ++ next.1, next.2)
      | .ok dest =>
        let seen' := fun x => if x = m.id then some nowIso else seen x
        let idMap' := if dest ≠ "" then (fun x => if x = m.id then some dest else idMap x)
          else idMap
        let next := runLoop net nowIso cap mfp idIndex rest seen' idMap' r.k (sent + 1)
        (r.sent ++ next.1, next.2)

/-- The whole forwarding run of `forward_loop.py`'s `main` over a parsed
artifact: build the id index, filter + normalize + sort, then loop. -/
def pipeline (net : Net) (nowIso : String) (cap mfp : Nat) (raws : List RawMsg)
    (seen idMap : String → Option String) :
    List Request × (String → Option String) × (String → Option String) × Nat × Nat :=
  runLoop net nowIso cap mfp (some (buildIdIndex raws)) (normalizedOf raws) seen idMap 0 0

end FL

namespace FO
/-! ### `forward_once.py` — forwarding engine -/

/-- Decision for one attachment (`forward_once.py` lines 285-313); the
filename is run through `sanitize_filename` a second time here. -/
def classifyOne (net : Net) (cap : Nat) (a : NAtt) : Except String DownFile :=
  let fn := sanitizeFilename a.filename
  let ctype := strOr a.content_type "application/octet-stream"
  let sizeHint := if a.size_hint ≠ 0 then a.size_hint else (net.headSize a.url).getD 0
  if sizeHint ≠ 0 ∧ cap < sizeHint then .error a.url
  else
    match net.fetchLen a.url with
    | none => .error a.url
    | some n => if cap < n then .error a.url else .ok ⟨fn, n, ctype, a.url⟩

/-- `downloadable` and `link_only` in attachment order. -/
def classifyAtts (net : Net) (cap : Nat) (atts : List NAtt) : List DownFile × List String :=
  (atts.filterMap (fun a => (classifyOne net cap a).toOption),
   atts.filterMap (fun a =>
     match classifyOne net cap a with
     | .error u => some u
     | .ok _ => none))

/-- The `Attachment: url` link line (`forward_once.py` line 318). -/
def mkLinkLine (u : String) : String := "Attachment: " ++ u

/-- `link_suffix` (`forward_once.py` lines 316-318). -/
def linkSuffixOf (links : List String) : String :=
  if links = [] then "" else "\n" ++ String.intercalate "\n" (links.map mkLinkLine)

/-- `header` (`forward_once.py` lines 264-268). -/
def headerOf (idMap : String → Option String) (msg : NMsg) : String :=
  let destReply := match msg.reply_to_id with
    | some r => if r ≠ "" then idMap r else none
    | none => none
  if truthy msg.reply_to_id ∧ ¬ (truthy destReply = true) ∧ truthy msg.reply_preview then
    msg.reply_preview.getD "" ++ "\n"
  else if truthy msg.reply_to_id ∧ ¬ (truthy destReply = true) then
    "(replying to an earlier message)\n"
  else ""

/-- `chunks = chunk_text(header + content, 1900)` (`forward_once.py` line 270). -/
def chunksOf (idMap : String → Option String) (msg : NMsg) : List String :=
  chunkText (headerOf idMap msg ++ pyOrS msg.content "") 1900

/-- The follow-up attachment batches (`forward_once.py` lines 341-355):
labelled `(attachment batch {batch_idx})` from 2, threaded onto the primary
post when its id is known, responses ignored. -/
def postBatches (net : Net) (username : String) (avatar : Option String)
    (dest : Option String) :
    List (List DownFile) → Nat → Nat → List Request × Except Unit Unit × Nat
  | [], _bidx, k => ([], .ok (), k)
  | b :: rest, bidx, k =>
    let payload : Payload :=
      { content := "(attachment batch " ++ toString bidx ++ ")",
        username := username,
        avatar_url := if truthy avatar then avatar else none,
        message_reference := if truthy dest then dest else none,
        embeds := [] }
    let req : Request := ⟨payload, mkForm b⟩
    match net.post k with
    | .error _ => ([req], .error (), k + 1)
    | .ok _ =>
      let next := postBatches net username avatar dest rest (bidx + 1) (k + 1)
      (req :: next.1, next.2.1, next.2.2)

/-- The primary post and its follow-up attachment batches
(`forward_once.py` lines 327-365): requests sent, returned
`dest_message_id`, next post counter. -/
def primaryAndBatches (net : Net) (mfp : Nat) (username : String) (avatar : Option String)
    (basePayload : Payload) (down : List DownFile) (linkSuffix : String) (k : Nat) :
    List Request × Except Unit (Option String) × Nat :=
  if down ≠ [] then
    let payload := { basePayload with content :=
      if linkSuffix ≠ "" then basePayload.content ++ linkSuffix else basePayload.content }
    let req0 : Request := ⟨payload, mkForm (down.take mfp)⟩
    match net.post k with
    | .error _ => ([req0], .error (), k + 1)
    | .ok rid =>
      let bs := postBatches net username avatar rid (batchList (down.drop mfp) mfp) 2 (k + 1)
      match bs.2.1 with
      | .error _ => (req0 :: bs.1, .error (), bs.2.2)
      | .ok _ => (req0 :: bs.1, .ok rid, bs.2.2)
  else
    let payload := { basePayload with content := basePayload.content ++ linkSuffix }
    let req0 : Request := ⟨payload, []⟩
    match net.post k with
    | .error _ => ([req0], .error (), k + 1)
    | .ok rid => ([req0], .ok rid, k + 1)

/-- `forward_message` (`forward_once.py` lines 253-381).  Returns the primary
post's destination id or `None`.  The chained text-part loop (lines 367-379)
is line-identical to `forward_loop.py`'s, so `FL.postChunks` embeds it. -/
def forwardMessage (net : Net) (cap mfp : Nat) (dryRun : Bool) (msg : NMsg)
    (idMap : String → Option String) (k : Nat) : FwdRes (Option String) :=
  let destReply := match msg.reply_to_id with
    | some r => if r ≠ "" then idMap r else none
    | none => none
  let chunks := chunksOf idMap msg
  let basePayload : Payload :=
    { content := if 1 < chunks.length then chunks.headD "" ++ " (part 1)" else chunks.headD "",
      username := msg.username,
      avatar_url := if truthy msg.avatar_url then msg.avatar_url else none,
      message_reference := if truthy destReply then destReply else none,
      embeds := [] }
  let dl := classifyAtts net cap msg.attachments
  if dryRun then ⟨[], .ok none, k⟩
  else
    let afterPrimary :=
      primaryAndBatches net mfp msg.username msg.avatar_url basePayload dl.1
        (linkSuffixOf dl.2) k
    match afterPrimary.2.1 with
    | .error _ => ⟨afterPrimary.1, .error (), afterPrimary.2.2⟩
    | .ok dest =>
      let chain := FL.postChunks net msg.username msg.avatar_url chunks.tail 2 afterPrimary.2.2 dest
      match chain.2.1 with
      | .error _ => ⟨afterPrimary.1 ++ chain.1, .error (), chain.2.2⟩
      | .ok _ => ⟨afterPrimary.1 ++ chain.1, .ok dest, chain.2.2⟩

/-- The per-message loop of `main` (`forward_once.py` lines 420-430).  Unlike
`forward_loop.py` there is no in-loop seen check: the list was prefiltered. -/
def runLoop (net : Net) (nowIso : String) (cap mfp : Nat) (dryRun : Bool) :
    List NMsg → (String → Option String) → (String → Option String) → Nat → Nat →
    List Request × (String → Option String) × (String → Option String) × Nat × Nat
  | [], seen, idMap, k, sent => ([], seen, idMap, k, sent)
  | m :: rest, seen, idMap, k, sent =>
    let r := forwardMessage net cap mfp dryRun m idMap k
    match r.result with
    | .error _ =>
      let next := runLoop net nowIso cap mfp dryRun rest seen idMap r.k sent
      (r.sent ++ next.1, next.2)
    | .ok dest =>
      let seen' := fun x => if x = m.id then some nowIso else seen x
      let idMap' := if truthy dest then (fun x => if x = m.id then some (dest.getD "") else idMap x)
        else idMap
      let next := runLoop net nowIso cap mfp dryRun rest seen' idMap' r.k (sent + 1)
      (r.sent ++ next.1, next.2)

/-- The whole forwarding run of `forward_once.py`'s `main`: normalize, keep
only messages whose id is not in `seen` (`forward_once.py` line 412), loop. -/
def pipeline (net : Net) (nowIso : String) (cap mfp : Nat) (dryRun : Bool)
    (raws : List RawMsg) (seen idMap : String → Option String) :
    List Request × (String → Option String) × (String → Option String) × Nat × Nat :=
  runLoop net nowIso cap mfp dryRun
    ((normalizeExport raws).filter (fun m => (seen m.id).isNone)) seen idMap 0 0

/-! ### `forward_once.py` — delivery layer (`post_webhook`, lines 179-223) -/

/-- Outcome of one HTTP POST attempt inside `post_webhook`:
a raised transport exception, or a response with its status code, parsed
`Retry-After` header (`none` = header absent, in which case the code uses
`"1"`), and the `id` recoverable from its JSON body. -/
inductive HAtt where
  | exn : HAtt
  | resp (status : Nat) (retryAfter : Option ℚ) (rid : Option String) : HAtt
deriving DecidableEq, Repr

/-- A response as `post_webhook` returns it. -/
structure WResp where
  status : Nat
  retryAfter : Option ℚ
  rid : Option String
deriving DecidableEq, Repr

/-- `_sleep_backoff(i)` (`forward_once.py` lines 174-177):
`min(cap, base * 2**i) + 0.05 * i` with `base = 0.8`, `cap = 10.0`. -/
def backoff (i : Nat) : ℚ := min 10 ((8/10) * 2 ^ i) + (5/100) * i

/-- The retry loop of `post_webhook`.  `att t` is the outcome of the attempt
made with `tries = t` (the counter increments exactly once per iteration).
Returns the list of sleeps performed and either the returned response or
`.error` for a re-raised transport exception. -/
def postWebhookAux (att : Nat → HAtt) (tries : Nat) : List ℚ × Except Unit WResp :=
  match att tries with
  | .exn =>
    if 5 ≤ tries then ([], .error ())
    else
      let next := postWebhookAux att (tries + 1)
      (backoff tries :: next.1, next.2)
  | .resp st ra rid =>
    if st = 429 then
      let slp := max (2/10 : ℚ) (ra.getD 1)
      if 8 < tries + 1 then ([slp], .ok ⟨st, ra, rid⟩)
      else
        let next := postWebhookAux att (tries + 1)
        (slp :: next.1, next.2)
    else if 500 ≤ st ∧ st < 600 then
      if 5 ≤ tries then ([], .ok ⟨st, ra, rid⟩)
      else
        let next := postWebhookAux att (tries + 1)
        (backoff tries :: next.1, next.2)
    else ([], .ok ⟨st, ra, rid⟩)
termination_by 9 - tries
decreasing_by all_goals omega

/-- `post_webhook` (`forward_once.py` lines 179-223). -/
def postWebhook (att : Nat → HAtt) : List ℚ × Except Unit WResp :=
  postWebhookAux att 0

end FO

namespace Sched
/-! ### `Loop_Forward/orchestrate_one.py` — window scheduler

Instants are integers in microseconds since the epoch.  `timedelta(minutes=m)`
is `minutes m` microseconds.  `iso_z` (line 8-9) serialises a datetime with
`replace(microsecond=0)`, i.e. it floors the instant to a whole second; the
value stored in `progress.json` is the instant that the serialised string
denotes, so a persisted write of instant `t` stores `isoZ t`.  Success of the
two external subprocess invocations of window number `k` is given by the
oracles `exp k` / `fwd k`.  The `while True:` loop is observed through a fuel
parameter: `fuel` bounds how many windows of the (possibly unbounded) run the
trace records. -/

def minutes (m : ℤ) : ℤ := 60000000 * m

/-- Floor to a whole second (`replace(microsecond=0)` inside `iso_z`). -/
def isoZ (t : ℤ) : ℤ := t - t.emod 1000000

/-- Observable events of one scheduler run. -/
inductive Ev where
  | exportCall (after before : ℤ)   -- one invocation of the external exporter
  | forwardCall                     -- one invocation of the forwarding script
  | write (t : ℤ)                   -- save_progress with last_before_iso = t
  | retain                          -- enforce_retention
deriving DecidableEq, Repr

/-- The window loop (`orchestrate_one.py` lines 103-165). -/
def run (exp fwd : Nat → Bool) (w o target : ℤ) : Nat → Nat → ℤ → List Ev
  | _k, 0, _lb => []
  | k, fuel + 1, lb =>
    let a := lb - o
    let b := min (a + w) target
    if b ≤ a then []
    else
      Ev.exportCall a b ::
      (if exp k = false then []
       else Ev.forwardCall ::
         (if fwd k = false then []
          else Ev.write (isoZ b) :: Ev.retain ::
            (if target ≤ b then [] else run exp fwd w o target (k + 1) fuel b)))

/-- The parsed content of `progress.json` as `main` reads it
(lines 89-96): absent/falsy `last_before_iso`, an unparsable value, or the
parsed instant. -/
inductive Prog where
  | absent : Prog
  | bad : Prog
  | val (t : ℤ) : Prog
deriving DecidableEq, Repr

/-- Initial `last_before` (lines 89-96). -/
def initialLb (p : Prog) (target w o : ℤ) : ℤ :=
  match p with
  | .absent => target - (w - o)
  | .bad => target
  | .val t => t

/-- One whole scheduler invocation: `target_before = now - 1 minute`,
window/overlap from the CLI arguments in minutes. -/
def mainRun (exp fwd : Nat → Bool) (windowMin overlapMin now : ℤ) (p : Prog)
    (fuel : Nat) : List Ev :=
  let target := now - minutes 1
  let w := minutes windowMin
  let o := minutes overlapMin
  run exp fwd w o target 0 fuel (initialLb p target w o)

/-- The checkpoint values persisted during a run, in order. -/
def schedWrites (es : List Ev) : List ℤ :=
  es.filterMap (fun e => match e with | .write t => some t | _ => none)

/-- The exporter invocations of a run, in order, with their window bounds. -/
def schedExports (es : List Ev) : List (ℤ × ℤ) :=
  es.filterMap (fun e => match e with | .exportCall a b => some (a, b) | _ => none)

/-- The forwarding invocations of a run. -/
def schedForwards (es : List Ev) : Nat :=
  (es.filter (fun e => e matches .forwardCall)).length

end Sched

/-! ### Statement apparatus

Expected shapes of the emitted texts, used to state the chunking-fidelity and
reply-precedence properties (spec §8: chained posts "labeled with a part
index" / "labeled with a batch index"). -/

/-- Texts of the chained text-part posts: chunk k carries suffix ` (part idx+k)`. -/
def labelParts (idx : Nat) : List String → List String
  | [] => []
  | c :: rest => (c ++ " (part " ++ toString idx ++ ")") :: labelParts (idx + 1) rest

/-- Texts of the `forward_loop.py` follow-up batch posts (`count` batches
starting at `bidx`). -/
def labelBatchesFL (msgId : String) (total : Nat) : Nat → Nat → List String
  | 0, _bidx => []
  | count + 1, bidx =>
    ("(attachment batch " ++ toString bidx ++ "/" ++ toString total ++
      ") from original message " ++ msgId) :: labelBatchesFL msgId total count (bidx + 1)

/-- A two-message artifact whose second message replies to the first
(concrete inputs for the reply-resolution claim). -/
def rawPC4 : RawMsg :=
  { id := some "a", content := some "hello", author := some { name := some "alice" } }

def rawCC4 : RawMsg :=
  { id := some "b", content := some "hi", author := some { name := some "bob" },
    reference := some { messageId := some "a" } }

def netC4 : Net :=
  { headSize := fun _ => none, fetchLen := fun _ => some 1, post := fun _ => .ok none }

end DCF

namespace DCF

/-! ## Theorems -/

/-! ### Generic facts about the slicing helpers -/

theorem sliceListF_flatten (n : Nat) : ∀ (fuel : Nat) (l : List α), l.length ≤ fuel →
    (sliceListF n fuel l).flatten = l := by
  intro fuel
  induction fuel with
  | zero =>
    intro l hl
    cases l with
    | nil => rfl
    | cons x xs => simp at hl
  | succ fuel ih =>
    intro l hl
    cases l with
    | nil => rfl
    | cons x xs =>
      simp only [sliceListF, List.flatten_cons]
      rw [ih (xs.drop (n - 1)) (by simp only [List.length_drop]; simp at hl; omega)]
      simp [List.take_append_drop]

theorem sliceList_flatten (n : Nat) (l : List α) : (sliceList n l).flatten = l :=
  sliceListF_flatten n l.length l le_rfl

theorem sliceListF_mem_length (n : Nat) (hn : 1 ≤ n) :
    ∀ (fuel : Nat) (l : List α), ∀ c ∈ sliceListF n fuel l, c.length ≤ n := by
  intro fuel
  induction fuel with
  | zero =>
    intro l c hc
    cases l <;> simp [sliceListF] at hc
  | succ fuel ih =>
    intro l c hc
    cases l with
    | nil => simp [sliceListF] at hc
    | cons x xs =>
      simp only [sliceListF, List.mem_cons] at hc
      rcases hc with hc | hc
      · subst hc
        simp only [List.length_cons]
        have := List.length_take_le (n - 1) xs
        omega
      · exact ih (xs.drop (n - 1)) c hc

theorem sliceList_mem_length (n : Nat) (hn : 1 ≤ n) (l : List α) :
    ∀ c ∈ sliceList n l, c.length ≤ n :=
  sliceListF_mem_length n hn l.length l

theorem sliceList_ne_nil (n : Nat) (l : List α) (h : l ≠ []) : sliceList n l ≠ [] := by
  cases l with
  | nil => exact absurd rfl h
  | cons x xs => simp [sliceList, sliceListF]

theorem sliceList_mem_mem (n : Nat) {l c : List α} (hc : c ∈ sliceList n l) {x : α}
    (hx : x ∈ c) : x ∈ l := by
  have h := sliceList_flatten n l
  rw [← h]
  exact List.mem_flatten.mpr ⟨c, hc, hx⟩

theorem sliceList_head_take (n : Nat) (hn : 1 ≤ n) (x : α) (xs : List α) :
    (sliceList n (x :: xs)).headD [] = (x :: xs).take n := by
  cases n with
  | zero => omega
  | succ m => simp [sliceList, sliceListF, List.take_cons]

theorem join_map_mk (ls : List (List Char)) :
    String.join (ls.map (fun l => (⟨l⟩ : String))) = ⟨ls.flatten⟩ := by
  have key : ∀ (acc : List Char) (ls : List (List Char)),
      List.foldl (· ++ ·) (⟨acc⟩ : String) (ls.map (fun l => (⟨l⟩ : String))) =
        ⟨acc ++ ls.flatten⟩ := by
    intro acc ls
    induction ls generalizing acc with
    | nil => simp
    | cons c cs ih => simpa using ih (acc ++ c)
  simpa [String.join] using key [] ls

/-- Chunking fidelity of `chunk_text` itself: the chunks concatenate back to
the input, losslessly and in order. -/
theorem chunkText_join (s : String) (limit : Nat) : String.join (chunkText s limit) = s := by
  unfold chunkText
  split
  · next h => simp [String.join, h]
  · rw [join_map_mk, sliceList_flatten]

theorem chunkText_mem_length (s : String) (limit : Nat) (hl : 1 ≤ limit) :
    ∀ c ∈ chunkText s limit, c.length ≤ limit := by
  unfold chunkText
  split
  · intro c hc; simp at hc; subst hc; simp [String.length]
  · intro c hc
    simp only [List.mem_map] at hc
    obtain ⟨cl, hcl, rfl⟩ := hc
    simpa [String.length] using sliceList_mem_length limit hl s.data cl hcl

theorem chunkText_ne_nil (s : String) (limit : Nat) : chunkText s limit ≠ [] := by
  unfold chunkText
  split
  · simp
  · next h =>
    have : s.data ≠ [] := by
      intro hd
      exact h (by cases s; simp_all)
    simpa using sliceList_ne_nil limit s.data this

/-! ### Scheduler lemmas -/

theorem isoZ_eq_mul_ediv (t : ℤ) : Sched.isoZ t = 1000000 * (t / 1000000) := by
  show t - t % 1000000 = 1000000 * (t / 1000000)
  omega

theorem isoZ_mono {a b : ℤ} (h : a ≤ b) : Sched.isoZ a ≤ Sched.isoZ b := by
  rw [isoZ_eq_mul_ediv, isoZ_eq_mul_ediv]
  have := Int.ediv_le_ediv (by norm_num : (0:ℤ) < 1000000) h
  omega

/-- Invariant of the window loop for `overlap ≤ window`, starting from a
checkpoint not beyond the catch-up target: every persisted checkpoint value
is at least `isoZ lb`, the persisted values never decrease, and the window
bounds never decrease and stay within the target. -/
theorem run_monotone (exp fwd : Nat → Bool) (w o target : ℤ) (how : o ≤ w) :
    ∀ (fuel k : Nat) (lb : ℤ), lb ≤ target →
      (∀ t ∈ Sched.schedWrites (Sched.run exp fwd w o target k fuel lb), Sched.isoZ lb ≤ t) ∧
      List.Chain' (· ≤ ·) (Sched.schedWrites (Sched.run exp fwd w o target k fuel lb)) ∧
      (∀ ab ∈ Sched.schedExports (Sched.run exp fwd w o target k fuel lb),
        lb - o ≤ ab.1 ∧ lb ≤ ab.2 ∧ ab.2 ≤ target) ∧
      List.Chain' (fun x y : ℤ × ℤ => x.1 ≤ y.1 ∧ x.2 ≤ y.2)
        (Sched.schedExports (Sched.run exp fwd w o target k fuel lb)) := by
  intro fuel
  induction fuel with
  | zero => intro k lb _; simp [Sched.run, Sched.schedWrites, Sched.schedExports]
  | succ fuel ih =>
    intro k lb hlb
    rw [Sched.run]
    by_cases hba : min (lb - o + w) target ≤ lb - o
    · simp [hba, Sched.schedWrites, Sched.schedExports]
    · have hlbb : lb ≤ min (lb - o + w) target := le_min_iff.mpr ⟨by omega, hlb⟩
      have hbt : min (lb - o + w) target ≤ target := min_le_right _ _
      simp only [if_neg hba]
      cases hexp : exp k with
      | false =>
        simp [hexp, Sched.schedWrites, Sched.schedExports]
        omega
      | true =>
        simp only [hexp, Bool.true_eq_false, if_false]
        cases hfwd : fwd k with
        | false =>
          simp [hfwd, Sched.schedWrites, Sched.schedExports]
          omega
        | true =>
          simp only [hfwd, Bool.true_eq_false, if_false]
          by_cases hstop : target ≤ min (lb - o + w) target
          · simp [hstop, Sched.schedWrites, Sched.schedExports]
            refine ⟨isoZ_mono hlbb, ?_⟩
            omega
          · simp only [if_neg hstop]
            obtain ⟨ihw, ihwc, ihe, ihec⟩ :=
              ih (k + 1) (min (lb - o + w) target) (le_of_lt (not_le.mp hstop))
            constructor
            · intro t ht
              simp only [Sched.schedWrites, List.filterMap_cons] at ht ⊢
              simp only [List.mem_cons] at ht
              rcases ht with rfl | ht
              · exact isoZ_mono hlbb
              · exact le_trans (isoZ_mono hlbb) (ihw t ht)
            constructor
            · simp only [Sched.schedWrites, List.filterMap_cons]
              refine List.chain'_cons'.mpr ⟨?_, ihwc⟩
              intro y hy
              have : y ∈ Sched.schedWrites
                  (Sched.run exp fwd w o target (k + 1) fuel (min (lb - o + w) target)) :=
                List.mem_of_mem_head? hy
              exact ihw y this
            constructor
            · intro ab hab
              simp only [Sched.schedExports, List.filterMap_cons] at hab
              simp only [List.mem_cons] at hab
              rcases hab with rfl | hab
              · exact ⟨le_refl _, hlbb, hbt⟩
              · have := ihe ab hab
                refine ⟨by omega, by omega, this.2.2⟩
            · simp only [Sched.schedExports, List.filterMap_cons]
              refine List.chain'_cons'.mpr ⟨?_, ihec⟩
              intro y hy
              have hmem : y ∈ Sched.schedExports
                  (Sched.run exp fwd w o target (k + 1) fuel (min (lb - o + w) target)) :=
                List.mem_of_mem_head? hy
              have := ihe y hmem
              exact ⟨by omega, by omega⟩

end DCF

namespace DCF

/-! ### Claim C2 — ProgressMarker monotonicity -/

/-- C2, counterexample.  The claim quantifies over every starting marker and
every scheduler run, but with `--window-min 1 --overlap-min 5` (window smaller
than overlap) a run starting from marker `0` (second-aligned, below the
catch-up target) persists the value `-240000000` (= marker minus 4 minutes):
the written value is strictly below the previously persisted one, so the
marker is not a monotonic high-water mark for every run. -/
theorem c2_counterexample :
    Sched.schedWrites (Sched.run (fun _ => true) (fun _ => true)
      (Sched.minutes 1) (Sched.minutes 5) (Sched.minutes 100) 0 1 0) = [-240000000] ∧
    (-240000000 : ℤ) < 0 := by
  constructor
  · decide
  · decide

/-- C2, amended: provided the overlap does not exceed the window size and the
persisted marker does not exceed the catch-up target (and is second-aligned,
as every value the scheduler itself persists is), every value written to
`last_before_iso` during a run is ≥ the previously persisted value, the
written values never decrease, and the generated window bounds never
decrease. -/
theorem c2_marker_monotone (exp fwd : Nat → Bool) (w o target lb : ℤ) (fuel k : Nat)
    (how : o ≤ w) (hlb : lb ≤ target) (halign : Sched.isoZ lb = lb) :
    (∀ t ∈ Sched.schedWrites (Sched.run exp fwd w o target k fuel lb), lb ≤ t) ∧
    List.Chain' (· ≤ ·) (Sched.schedWrites (Sched.run exp fwd w o target k fuel lb)) ∧
    List.Chain' (fun x y : ℤ × ℤ => x.1 ≤ y.1 ∧ x.2 ≤ y.2)
      (Sched.schedExports (Sched.run exp fwd w o target k fuel lb)) := by
  obtain ⟨h1, h2, _h3, h4⟩ := run_monotone exp fwd w o target how fuel k lb hlb
  exact ⟨fun t ht => halign ▸ h1 t ht, h2, h4⟩

/-- Witness for `c2_marker_monotone` at `--window-min 33 --overlap-min 1`,
marker 0, target 100 minutes. -/
theorem c2_marker_monotone_witness :
    List.Chain' (· ≤ ·) (Sched.schedWrites (Sched.run (fun _ => true) (fun _ => true)
      (Sched.minutes 33) (Sched.minutes 1) (Sched.minutes 100) 0 5 0)) :=
  (c2_marker_monotone (fun _ => true) (fun _ => true) (Sched.minutes 33) (Sched.minutes 1)
    (Sched.minutes 100) 0 5 0 (by decide) (by decide) (by decide)).2.1

/-! ### Claim C3 — rerun immediately after full catch-up -/

/-- C3, counterexample.  With the checkpoint already equal to the catch-up
target (`now − margin`), defaults `--window-min 33 --overlap-min 1`, and both
subprocess steps succeeding, the scheduler performs one exporter invocation
over the residual overlap window — not zero as the claim states. -/
theorem c3_counterexample :
    Sched.schedExports (Sched.run (fun _ => true) (fun _ => true)
        (Sched.minutes 33) (Sched.minutes 1) 1980000000000 0 2 1980000000000) =
      [(1979940000000, 1980000000000)] ∧
    Sched.schedExports (Sched.run (fun _ => true) (fun _ => true)
        (Sched.minutes 33) (Sched.minutes 1) 1980000000000 0 2 1980000000000) ≠ [] := by
  constructor
  · decide
  · decide

/-- C3, amended: a scheduler invocation whose checkpoint already equals the
catch-up target (with `0 < overlap ≤ window` and both steps succeeding)
executes exactly one window — the overlap window `[target − overlap, target)`
— invoking the exporter once and the forwarder once, rewrites the checkpoint
to (the second-floor of) the same target value, and then stops. -/
theorem c3_caught_up_single_overlap_window (exp fwd : Nat → Bool) (w o target : ℤ)
    (fuel : Nat) (ho : 0 < o) (how : o ≤ w) (hexp : exp 0 = true) (hfwd : fwd 0 = true) :
    Sched.run exp fwd w o target 0 (fuel + 1) target =
      [Sched.Ev.exportCall (target - o) target, Sched.Ev.forwardCall,
       Sched.Ev.write (Sched.isoZ target), Sched.Ev.retain] := by
  rw [Sched.run]
  have hb : min (target - o + w) target = target := min_eq_right (by omega)
  simp [hb, hexp, hfwd, show ¬(target ≤ target - o) by omega]

/-- Witness for `c3_caught_up_single_overlap_window`. -/
theorem c3_caught_up_single_overlap_window_witness :
    Sched.run (fun _ => true) (fun _ => true) (Sched.minutes 33) (Sched.minutes 1)
      1980000000000 0 3 1980000000000 =
      [Sched.Ev.exportCall (1980000000000 - Sched.minutes 1) 1980000000000,
       Sched.Ev.forwardCall, Sched.Ev.write (Sched.isoZ 1980000000000), Sched.Ev.retain] :=
  c3_caught_up_single_overlap_window (fun _ => true) (fun _ => true)
    (Sched.minutes 33) (Sched.minutes 1) 1980000000000 2 (by decide) (by decide) rfl rfl

/-! ### Claim C7 — window failure aborts without advancing the checkpoint -/

/-- C7: if the exporter exits nonzero on a window, the run's trace ends right
after that exporter invocation — no forward step, no checkpoint write, no
retention, no further windows — and likewise (after the forward step) when
the forwarding subprocess exits nonzero; in both cases no checkpoint value is
persisted, so the next invocation recomputes the same window from the
unchanged marker. -/
theorem c7_window_failure_aborts (exp fwd : Nat → Bool) (w o target lb : ℤ)
    (k fuel : Nat) (hwin : lb - o < min (lb - o + w) target) :
    (exp k = false →
      Sched.run exp fwd w o target k (fuel + 1) lb =
        [Sched.Ev.exportCall (lb - o) (min (lb - o + w) target)] ∧
      Sched.schedWrites (Sched.run exp fwd w o target k (fuel + 1) lb) = []) ∧
    (exp k = true → fwd k = false →
      Sched.run exp fwd w o target k (fuel + 1) lb =
        [Sched.Ev.exportCall (lb - o) (min (lb - o + w) target), Sched.Ev.forwardCall] ∧
      Sched.schedWrites (Sched.run exp fwd w o target k (fuel + 1) lb) = []) := by
  constructor
  · intro he
    have htrace : Sched.run exp fwd w o target k (fuel + 1) lb =
        [Sched.Ev.exportCall (lb - o) (min (lb - o + w) target)] := by
      rw [Sched.run]
      simp [he, show ¬(min (lb - o + w) target ≤ lb - o) by omega]
    exact ⟨htrace, by rw [htrace]; rfl⟩
  · intro he hf
    have htrace : Sched.run exp fwd w o target k (fuel + 1) lb =
        [Sched.Ev.exportCall (lb - o) (min (lb - o + w) target), Sched.Ev.forwardCall] := by
      rw [Sched.run]
      simp [he, hf, show ¬(min (lb - o + w) target ≤ lb - o) by omega]
    exact ⟨htrace, by rw [htrace]; rfl⟩

/-- Witness for `c7_window_failure_aborts` (exporter fails on the first window). -/
theorem c7_window_failure_aborts_witness :
    Sched.schedWrites (Sched.run (fun _ => false) (fun _ => true) (Sched.minutes 33)
      (Sched.minutes 1) (Sched.minutes 1000) 0 4 0) = [] :=
  ((c7_window_failure_aborts (fun _ => false) (fun _ => true) (Sched.minutes 33)
    (Sched.minutes 1) (Sched.minutes 1000) 0 0 3 (by decide)).1 rfl).2

end DCF

namespace DCF

/-! ### Claim C8 — delivery-layer retry policy (`forward_once.py` `post_webhook`) -/

theorem aux_429 (ra : Option ℚ) (rid : Option String) :
    ∀ m, m ≤ 8 →
      FO.postWebhookAux (fun _ => FO.HAtt.resp 429 ra rid) (8 - m) =
        (List.replicate (m + 1) (max (2/10 : ℚ) (ra.getD 1)), .ok ⟨429, ra, rid⟩) := by
  intro m
  induction m with
  | zero =>
    intro _
    unfold FO.postWebhookAux
    norm_num
  | succ m ih =>
    intro hm
    unfold FO.postWebhookAux
    have h1 : ¬ (8 < 8 - (m + 1) + 1) := by omega
    have h2 : 8 - (m + 1) + 1 = 8 - m := by omega
    simp only [if_pos rfl, h2, if_neg h1, ih (by omega)]
    simp [List.replicate_succ]

theorem aux_5xx_step (st : Nat) (ra : Option ℚ) (rid : Option String) (tries : Nat)
    (h5 : 500 ≤ st) (h6 : st < 600) (ht : tries < 5) :
    FO.postWebhookAux (fun _ => FO.HAtt.resp st ra rid) tries =
      (FO.backoff tries :: (FO.postWebhookAux (fun _ => FO.HAtt.resp st ra rid) (tries + 1)).1,
       (FO.postWebhookAux (fun _ => FO.HAtt.resp st ra rid) (tries + 1)).2) := by
  conv_lhs => unfold FO.postWebhookAux
  have h429 : st ≠ 429 := by omega
  simp [h429, h5, h6, show ¬ (5 ≤ tries) by omega]

theorem aux_5xx_end (st : Nat) (ra : Option ℚ) (rid : Option String)
    (h5 : 500 ≤ st) (h6 : st < 600) :
    FO.postWebhookAux (fun _ => FO.HAtt.resp st ra rid) 5 =
      ([], .ok ⟨st, ra, rid⟩) := by
  unfold FO.postWebhookAux
  have h429 : st ≠ 429 := by omega
  simp [h429, h5, h6]

theorem aux_exn_step (tries : Nat) (ht : tries < 5) :
    FO.postWebhookAux (fun _ => FO.HAtt.exn) tries =
      (FO.backoff tries :: (FO.postWebhookAux (fun _ => FO.HAtt.exn) (tries + 1)).1,
       (FO.postWebhookAux (fun _ => FO.HAtt.exn) (tries + 1)).2) := by
  conv_lhs => unfold FO.postWebhookAux
  simp [show ¬ (5 ≤ tries) by omega]

theorem aux_exn_end :
    FO.postWebhookAux (fun _ => FO.HAtt.exn) 5 = ([], .error ()) := by
  unfold FO.postWebhookAux
  simp

/-- C8, counterexample.  A post that receives one rate-limited response with
server-specified delay `Retry-After: 0.1` sleeps `0.2` seconds, not the
server-specified `0.1`: the code sleeps `max(0.2, retry_after)`
(`forward_once.py` line 207), so "sleeps exactly the server-specified delay"
is false.  (The `Loop_Forward` generation's `post_webhook`,
`forward_loop.py` lines 189-194, performs no retries at all.) -/
theorem c8_counterexample :
    FO.postWebhook (fun n => if n = 0 then FO.HAtt.resp 429 (some (1/10)) none
                             else FO.HAtt.resp 200 none (some "9")) =
      ([(2/10 : ℚ)], .ok ⟨200, none, some "9"⟩) ∧ (2/10 : ℚ) ≠ (1/10 : ℚ) := by
  constructor
  · unfold FO.postWebhook
    unfold FO.postWebhookAux
    norm_num
    unfold FO.postWebhookAux
    norm_num [max_eq_left (by norm_num : (1/10 : ℚ) ≤ 2/10)]
  · norm_num

/-- C8, amended, for the retrying delivery layer (`forward_once.py`):
a rate-limited response makes the layer sleep the server-specified delay
clamped below at 0.2 s (1 s when the header is absent) and retry, at most 9
attempts in total, returning the last (rate-limited) response rather than
raising when the bound is exhausted; a server-error response is retried with
capped exponential backoff plus a small linear increment
(`min(10, 0.8·2^i) + 0.05·i`), at most 6 attempts, returning the last
response on exhaustion; a transport-level connection failure is retried with
the same backoff and propagates (raises) after 6 attempts. -/
theorem c8_retry_policy :
    (∀ (ra : Option ℚ) (rid : Option String),
      FO.postWebhook (fun _ => FO.HAtt.resp 429 ra rid) =
        (List.replicate 9 (max (2/10 : ℚ) (ra.getD 1)), .ok ⟨429, ra, rid⟩)) ∧
    (∀ (st : Nat) (ra : Option ℚ) (rid : Option String), 500 ≤ st → st < 600 →
      FO.postWebhook (fun _ => FO.HAtt.resp st ra rid) =
        ([FO.backoff 0, FO.backoff 1, FO.backoff 2, FO.backoff 3, FO.backoff 4],
         .ok ⟨st, ra, rid⟩)) ∧
    FO.postWebhook (fun _ => FO.HAtt.exn) =
      ([FO.backoff 0, FO.backoff 1, FO.backoff 2, FO.backoff 3, FO.backoff 4],
       .error ()) := by
  refine ⟨fun ra rid => ?_, fun st ra rid h5 h6 => ?_, ?_⟩
  · unfold FO.postWebhook
    simpa using aux_429 ra rid 8 (by omega)
  · unfold FO.postWebhook
    rw [aux_5xx_step st ra rid 0 h5 h6 (by omega),
        aux_5xx_step st ra rid 1 h5 h6 (by omega),
        aux_5xx_step st ra rid 2 h5 h6 (by omega),
        aux_5xx_step st ra rid 3 h5 h6 (by omega),
        aux_5xx_step st ra rid 4 h5 h6 (by omega),
        aux_5xx_end st ra rid h5 h6]
  · unfold FO.postWebhook
    rw [aux_exn_step 0 (by omega), aux_exn_step 1 (by omega), aux_exn_step 2 (by omega),
        aux_exn_step 3 (by omega), aux_exn_step 4 (by omega), aux_exn_end]

/-- Witness for `c8_retry_policy` at a concrete 503 response. -/
theorem c8_retry_policy_witness :
    FO.postWebhook (fun _ => FO.HAtt.resp 503 none none) =
      ([FO.backoff 0, FO.backoff 1, FO.backoff 2, FO.backoff 3, FO.backoff 4],
       .ok ⟨503, none, none⟩) :=
  c8_retry_policy.2.1 503 none none (by norm_num) (by norm_num)

end DCF


namespace DCF

/-! ### Order facts about the executable Python string comparison -/

theorem charListLt_trans : ∀ a b c : List Char,
    charListLt a b = true → charListLt b c = true → charListLt a c = true := by
  intro a
  induction a with
  | nil =>
    intro b c hab hbc
    cases b with
    | nil => simp [charListLt] at hab
    | cons y ys =>
      cases c with
      | nil => simp [charListLt] at hbc
      | cons z zs => simp [charListLt]
  | cons x xs ih =>
    intro b c hab hbc
    cases b with
    | nil => simp [charListLt] at hab
    | cons y ys =>
      cases c with
      | nil => simp [charListLt] at hbc
      | cons z zs =>
        simp only [charListLt] at hab hbc ⊢
        by_cases hxy : x < y
        · by_cases hyz : y < z
          · simp [lt_trans hxy hyz]
          · by_cases hzy : z < y
            · rw [if_neg hyz, if_pos hzy] at hbc; exact absurd hbc (by simp)
            · have hyz' : y = z := le_antisymm (not_lt.mp hzy) (not_lt.mp hyz)
              subst hyz'
              simp [hxy]
        · by_cases hyx : y < x
          · rw [if_neg hxy, if_pos hyx] at hab; exact absurd hab (by simp)
          · have hxy' : x = y := le_antisymm (not_lt.mp hyx) (not_lt.mp hxy)
            subst hxy'
            rw [if_neg (lt_irrefl x), if_neg (lt_irrefl x)] at hab
            by_cases hxz : x < z
            · simp [hxz]
            · by_cases hzx : z < x
              · rw [if_neg hxz, if_pos hzx] at hbc; exact absurd hbc (by simp)
              · rw [if_neg hxz, if_neg hzx] at hbc ⊢
                exact ih ys zs hab hbc

theorem charListLt_irrefl : ∀ a : List Char, charListLt a a = false := by
  intro a
  induction a with
  | nil => simp [charListLt]
  | cons x xs ih => simp [charListLt, ih]

theorem charListLt_eq_of_not : ∀ a b : List Char,
    charListLt a b = false → charListLt b a = false → a = b := by
  intro a
  induction a with
  | nil =>
    intro b hab _
    cases b with
    | nil => rfl
    | cons y ys => simp [charListLt] at hab
  | cons x xs ih =>
    intro b hab hba
    cases b with
    | nil => simp [charListLt] at hba
    | cons y ys =>
      simp only [charListLt] at hab hba
      by_cases hxy : x < y
      · rw [if_pos hxy] at hab; exact absurd hab (by simp)
      · by_cases hyx : y < x
        · rw [if_pos hyx] at hba; exact absurd hba (by simp)
        · have hxy' : x = y := le_antisymm (not_lt.mp hyx) (not_lt.mp hxy)
          subst hxy'
          rw [if_neg (lt_irrefl x), if_neg (lt_irrefl x)] at hab hba
          rw [ih ys hab hba]

theorem strLtB_eq_of_not {a b : String} (hab : strLtB a b = false) (hba : strLtB b a = false) :
    a = b := by
  cases a with
  | mk da =>
    cases b with
    | mk db => exact congrArg String.mk (charListLt_eq_of_not da db hab hba)

theorem strEq_of_dataBeq {a b : String} (h : (a.data == b.data) = true) : a = b := by
  cases a with
  | mk da =>
    cases b with
    | mk db => exact congrArg String.mk (beq_iff_eq.mp h)

theorem strLeB_trans {a b c : String} (hab : strLeB a b = true) (hbc : strLeB b c = true) :
    strLeB a c = true := by
  unfold strLeB at *
  simp only [Bool.or_eq_true] at hab hbc ⊢
  rcases hab with hab | hab <;> rcases hbc with hbc | hbc
  · exact Or.inl (charListLt_trans _ _ _ hab hbc)
  · exact Or.inl (strEq_of_dataBeq hbc ▸ hab)
  · exact Or.inl (strEq_of_dataBeq hab ▸ hbc)
  · exact Or.inr (by rw [strEq_of_dataBeq hab, strEq_of_dataBeq hbc]; simp)

theorem keyLe_trans : ∀ a b c : FL.NMsg, FL.keyLe a b = true → FL.keyLe b c = true →
    FL.keyLe a c = true := by
  intro a b c hab hbc
  unfold FL.keyLe pairLeB at *
  by_cases h1 : strLtB (FL.msgKey a).1 (FL.msgKey b).1
  · by_cases h2 : strLtB (FL.msgKey b).1 (FL.msgKey c).1
    · have h13 : strLtB (FL.msgKey a).1 (FL.msgKey c).1 = true :=
        charListLt_trans _ _ _ h1 h2
      rw [if_pos h13]
    · by_cases h3 : strLtB (FL.msgKey c).1 (FL.msgKey b).1
      · rw [if_neg h2, if_pos h3] at hbc; exact absurd hbc (by simp)
      · have he : (FL.msgKey b).1 = (FL.msgKey c).1 :=
          strLtB_eq_of_not (by simpa using h2) (by simpa using h3)
        rw [← he, if_pos h1]
  · by_cases h1' : strLtB (FL.msgKey b).1 (FL.msgKey a).1
    · rw [if_neg h1, if_pos h1'] at hab; exact absurd hab (by simp)
    · have he : (FL.msgKey a).1 = (FL.msgKey b).1 :=
        strLtB_eq_of_not (by simpa using h1) (by simpa using h1')
      rw [if_neg h1, if_neg h1'] at hab
      by_cases h2 : strLtB (FL.msgKey b).1 (FL.msgKey c).1
      · rw [he, if_pos h2]
      · by_cases h3 : strLtB (FL.msgKey c).1 (FL.msgKey b).1
        · rw [if_neg h2, if_pos h3] at hbc; exact absurd hbc (by simp)
        · rw [if_neg h2, if_neg h3] at hbc
          rw [he, if_neg h2, if_neg h3]
          exact strLeB_trans hab hbc

theorem keyLe_total : ∀ a b : FL.NMsg, (FL.keyLe a b || FL.keyLe b a) = true := by
  intro a b
  unfold FL.keyLe pairLeB
  by_cases h1 : strLtB (FL.msgKey a).1 (FL.msgKey b).1
  · simp [h1]
  · by_cases h2 : strLtB (FL.msgKey b).1 (FL.msgKey a).1
    · simp [h1, h2]
    · have he : (FL.msgKey a).1 = (FL.msgKey b).1 :=
        strLtB_eq_of_not (by simpa using h1) (by simpa using h2)
      rw [if_neg h1, if_neg h2, if_neg (he ▸ h2), if_neg (he ▸ h1)]
      unfold strLeB
      by_cases h3 : strLtB (FL.msgKey a).2 (FL.msgKey b).2
      · simp [h3]
      · by_cases h4 : strLtB (FL.msgKey b).2 (FL.msgKey a).2
        · simp [h4]
        · have he2 : (FL.msgKey a).2 = (FL.msgKey b).2 :=
            strLtB_eq_of_not (by simpa using h3) (by simpa using h4)
          simp [he2]


/-! ### Claim C9 — normalizer output order and skipping -/

/-- C9, counterexample.  `forward_once.py`'s `normalize_export` neither sorts
nor skips: on an artifact whose records arrive out of `(timestamp, id)` order
and whose third record has no id at all, the output keeps the artifact order
(keys `("2","b"), ("1","a"), ("","")` — not ascending) and keeps the id-less
record with `id = ""` instead of dropping it. -/
theorem c9_counterexample :
    (FO.normalizeExport [{ id := some "b", timestamp := some "2" },
                         { id := some "a", timestamp := some "1" },
                         {}]).map (fun m => (m.timestamp, m.id)) =
      [("2", "b"), ("1", "a"), ("", "")] ∧
    ¬ List.Pairwise (fun a b : String × String => pairLeB a b = true)
        ((FO.normalizeExport [{ id := some "b", timestamp := some "2" },
                              { id := some "a", timestamp := some "1" },
                              {}]).map (fun m => (m.timestamp, m.id))) ∧
    "" ∈ (FO.normalizeExport [{ id := some "b", timestamp := some "2" },
                              { id := some "a", timestamp := some "1" },
                              {}]).map (fun m => m.id) := by
  refine ⟨by decide, by decide, by decide⟩

/-- C9, amended.  The `Loop_Forward` pipeline behaves as the claim states:
its normalized sequence is sorted ascending by `(timestamp or "", id)` and is
a permutation of the normalizations of exactly the records with a truthy id
(records with no recoverable id are dropped, without affecting the others or
aborting).  The `Forward_Once` normalizer instead preserves artifact order
and keeps records without a recoverable id, assigning them the empty id. -/
theorem c9_normalizer_order (raws : List RawMsg) :
    List.Pairwise (fun a b => FL.keyLe a b = true) (FL.normalizedOf raws) ∧
    (FL.normalizedOf raws).Perm ((raws.filter (fun m => truthy m.id)).map FL.normalizeMessage) ∧
    (FO.normalizeExport raws).map (fun m => m.id) = raws.map (fun r => strOr r.id "") := by
  refine ⟨?_, ?_, ?_⟩
  · exact List.sorted_mergeSort keyLe_trans keyLe_total _
  · exact List.mergeSort_perm _ _
  · simp [FO.normalizeExport, FO.normalizeOne]

end DCF

namespace DCF

/-! ### Claim C1 — idempotence against a complete dedupe state -/

theorem runLoopFL_all_seen (net : Net) (nowIso : String) (cap mfp : Nat)
    (idIndex : Option (List (String × FL.IdxEntry))) :
    ∀ (msgs : List FL.NMsg) (seen idMap : String → Option String) (k sent : Nat),
      (∀ m ∈ msgs, (seen m.id).isSome) →
      (FL.runLoop net nowIso cap mfp idIndex msgs seen idMap k sent).1 = [] := by
  intro msgs
  induction msgs with
  | nil => intro seen idMap k sent _; rfl
  | cons m rest ih =>
    intro seen idMap k sent h
    rw [FL.runLoop]
    rw [if_pos (h m (List.mem_cons_self m rest))]
    exact ih seen idMap k sent (fun m' hm' => h m' (List.mem_cons_of_mem m hm'))

/-- C1: running either forwarding pipeline over an artifact whose message ids
are all already marked processed in the persisted dedupe state emits zero
delivery requests.  For the `Loop_Forward` pipeline "the artifact's ids" are
the `str(id)` of the records with a truthy id (the others are dropped before
the loop); for `Forward_Once` they are the ids of the normalized records
(`str(id or "")`, so an id-less record contributes `""`). -/
theorem c1_idempotence :
    (∀ (net : Net) (nowIso : String) (cap mfp : Nat) (raws : List RawMsg)
        (seen idMap : String → Option String),
      (∀ r ∈ raws, truthy r.id = true → (seen (pyStr r.id)).isSome) →
      (FL.pipeline net nowIso cap mfp raws seen idMap).1 = []) ∧
    (∀ (net : Net) (nowIso : String) (cap mfp : Nat) (dryRun : Bool) (raws : List RawMsg)
        (seen idMap : String → Option String),
      (∀ m ∈ FO.normalizeExport raws, (seen m.id).isSome) →
      (FO.pipeline net nowIso cap mfp dryRun raws seen idMap).1 = []) := by
  constructor
  · intro net nowIso cap mfp raws seen idMap h
    apply runLoopFL_all_seen
    intro m hm
    rw [FL.normalizedOf, List.mem_mergeSort] at hm
    obtain ⟨r, hr, rfl⟩ := List.mem_map.mp hm
    have := List.mem_filter.mp hr
    exact h r this.1 this.2
  · intro net nowIso cap mfp dryRun raws seen idMap h
    unfold FO.pipeline
    have : (FO.normalizeExport raws).filter (fun m => (seen m.id).isNone) = [] := by
      apply List.filter_eq_nil_iff.mpr
      intro m hm
      simp [Option.isNone_iff_eq_none]
      exact Option.isSome_iff_ne_none.mp (h m hm)
    rw [this]
    rfl

/-- Witness for `c1_idempotence`: a one-record artifact against a state that
already contains its id. -/
theorem c1_idempotence_witness :
    (FL.pipeline { headSize := fun _ => none, fetchLen := fun _ => none, post := fun _ => .ok none }
      "NOW" 100 10 [{ id := some "m1" }] (fun _ => some "T") (fun _ => none)).1 = [] ∧
    (FO.pipeline { headSize := fun _ => none, fetchLen := fun _ => none, post := fun _ => .ok none }
      "NOW" 100 10 false [{ id := some "m1" }] (fun _ => some "T") (fun _ => none)).1 = [] :=
  ⟨c1_idempotence.1 _ "NOW" 100 10 _ _ _ (fun r _ _ => by simp),
   c1_idempotence.2 _ "NOW" 100 10 false _ _ _ (fun m _ => by simp)⟩

/-! ### Claim C10 — marked processed even without a destination id -/

theorem runLoopFL_stable (net : Net) (nowIso : String) (cap mfp : Nat)
    (idIndex : Option (List (String × FL.IdxEntry))) :
    ∀ (msgs : List FL.NMsg) (seen idMap : String → Option String) (k sent : Nat) (i : String),
      (seen i).isSome →
      (FL.runLoop net nowIso cap mfp idIndex msgs seen idMap k sent).2.1 i = seen i ∧
      (FL.runLoop net nowIso cap mfp idIndex msgs seen idMap k sent).2.2.1 i = idMap i := by
  intro msgs
  induction msgs with
  | nil => intro seen idMap k sent i _; exact ⟨rfl, rfl⟩
  | cons m rest ih =>
    intro seen idMap k sent i hi
    rw [FL.runLoop]
    by_cases hm : (seen m.id).isSome
    · rw [if_pos hm]
      exact ih seen idMap k sent i hi
    · rw [if_neg hm]
      have hne : i ≠ m.id := by
        intro he
        exact hm (he ▸ hi)
      cases hr : (FL.forwardOneMessage net cap mfp m idMap idIndex k).result with
      | error e =>
        simp only [hr]
        exact ih seen idMap _ sent i hi
      | ok dest =>
        simp only [hr]
        by_cases hd : dest ≠ ""
        · simp only [if_pos hd]
          have h2 := ih (fun x => if x = m.id then some nowIso else seen x)
            (fun x => if x = m.id then some dest else idMap x)
            (FL.forwardOneMessage net cap mfp m idMap idIndex k).k (sent + 1) i
            (by simpa [hne] using hi)
          simpa [hne] using h2
        · simp only [if_neg hd]
          have h2 := ih (fun x => if x = m.id then some nowIso else seen x)
            idMap (FL.forwardOneMessage net cap mfp m idMap idIndex k).k (sent + 1) i
            (by simpa [hne] using hi)
          simpa [hne] using h2

theorem runLoopFO_stable (net : Net) (nowIso : String) (cap mfp : Nat) (dryRun : Bool) :
    ∀ (msgs : List FO.NMsg) (seen idMap : String → Option String) (k sent : Nat) (i : String),
      i ∉ msgs.map (fun m => m.id) →
      (FO.runLoop net nowIso cap mfp dryRun msgs seen idMap k sent).2.1 i = seen i ∧
      (FO.runLoop net nowIso cap mfp dryRun msgs seen idMap k sent).2.2.1 i = idMap i := by
  intro msgs
  induction msgs with
  | nil => intro seen idMap k sent i _; exact ⟨rfl, rfl⟩
  | cons m rest ih =>
    intro seen idMap k sent i hi
    simp only [List.map_cons, List.mem_cons, not_or] at hi
    rw [FO.runLoop]
    cases hr : (FO.forwardMessage net cap mfp dryRun m idMap k).result with
    | error e =>
      simp only [hr]
      exact ih seen idMap _ sent i (by simpa using hi.2)
    | ok dest =>
      simp only [hr]
      by_cases hd : truthy dest = true
      · simp only [if_pos hd]
        have h2 := ih (fun x => if x = m.id then some nowIso else seen x)
          (fun x => if x = m.id then some (dest.getD "") else idMap x)
          (FO.forwardMessage net cap mfp dryRun m idMap k).k (sent + 1) i
          (by simpa using hi.2)
        simpa [hi.1] using h2
      · simp only [if_neg hd]
        have h2 := ih (fun x => if x = m.id then some nowIso else seen x)
          idMap (FO.forwardMessage net cap mfp dryRun m idMap k).k (sent + 1) i
          (by simpa using hi.2)
        simpa [hi.1] using h2

/-- C10: in both mains, when forwarding a message returns normally (no
exception) but yields no destination id (`forward_loop.py` returns `""`,
`forward_once.py` a falsy id — a non-success or unparsable response body),
the message's source id IS recorded in the dedupe state (with the run's
timestamp) and NO identity-map entry is recorded for it, so it will be
skipped forever and can never be threaded to natively.  (For `Forward_Once`,
whose loop does not re-check `seen`, the statement assumes the rest of the
batch does not reuse the same id — ids are unique within a source log.) -/
theorem c10_processed_without_mapping :
    (∀ (net : Net) (nowIso : String) (cap mfp : Nat)
        (idIndex : Option (List (String × FL.IdxEntry))) (m : FL.NMsg) (rest : List FL.NMsg)
        (seen idMap : String → Option String) (k sent : Nat),
      (seen m.id).isNone →
      (FL.forwardOneMessage net cap mfp m idMap idIndex k).result = .ok "" →
      (FL.runLoop net nowIso cap mfp idIndex (m :: rest) seen idMap k sent).2.1 m.id =
        some nowIso ∧
      (FL.runLoop net nowIso cap mfp idIndex (m :: rest) seen idMap k sent).2.2.1 m.id =
        idMap m.id) ∧
    (∀ (net : Net) (nowIso : String) (cap mfp : Nat) (dryRun : Bool) (m : FO.NMsg)
        (rest : List FO.NMsg) (seen idMap : String → Option String) (k sent : Nat)
        (dest : Option String),
      m.id ∉ rest.map (fun m' => m'.id) →
      (FO.forwardMessage net cap mfp dryRun m idMap k).result = .ok dest →
      truthy dest = false →
      (FO.runLoop net nowIso cap mfp dryRun (m :: rest) seen idMap k sent).2.1 m.id =
        some nowIso ∧
      (FO.runLoop net nowIso cap mfp dryRun (m :: rest) seen idMap k sent).2.2.1 m.id =
        idMap m.id) := by
  constructor
  · intro net nowIso cap mfp idIndex m rest seen idMap k sent hseen hres
    rw [FL.runLoop]
    rw [if_neg (by simp [Option.isNone_iff_eq_none.mp hseen])]
    simp only [hres]
    rw [if_neg (by simp)]
    have h2 := runLoopFL_stable net nowIso cap mfp idIndex rest
      (fun x => if x = m.id then some nowIso else seen x) idMap
      (FL.forwardOneMessage net cap mfp m idMap idIndex k).k (sent + 1) m.id (by simp)
    simpa using h2
  · intro net nowIso cap mfp dryRun m rest seen idMap k sent dest hrest hres hdest
    rw [FO.runLoop]
    simp only [hres]
    rw [if_neg (by simp [hdest])]
    have h2 := runLoopFO_stable net nowIso cap mfp dryRun rest
      (fun x => if x = m.id then some nowIso else seen x) idMap
      (FO.forwardMessage net cap mfp dryRun m idMap k).k (sent + 1) m.id hrest
    simpa using h2

/-- Witness for `c10_processed_without_mapping`: the webhook response body of
the primary post yields no id (`post` gives `.ok none`), and the message still
lands in `seen` while the identity map stays empty. -/
theorem c10_processed_without_mapping_witness :
    (FL.runLoop { headSize := fun _ => none, fetchLen := fun _ => none, post := fun _ => .ok none }
        "NOW" 100 10 none
        [{ id := "m1", timestamp := none, content := "hi", username := "u", avatar_url := none,
           attachments := [], embeds := [], reply_to_id := none, reply_preview := none,
           jump_url := none }]
        (fun _ => none) (fun _ => none) 0 0).2.1 "m1" = some "NOW" ∧
    (FL.runLoop { headSize := fun _ => none, fetchLen := fun _ => none, post := fun _ => .ok none }
        "NOW" 100 10 none
        [{ id := "m1", timestamp := none, content := "hi", username := "u", avatar_url := none,
           attachments := [], embeds := [], reply_to_id := none, reply_preview := none,
           jump_url := none }]
        (fun _ => none) (fun _ => none) 0 0).2.2.1 "m1" =
      (fun (_ : String) => (none : Option String)) "m1" :=
  c10_processed_without_mapping.1 _ "NOW" 100 10 none _ [] _ _ 0 0 rfl rfl

end DCF


namespace DCF

/-! ### Claim C5 - attachment size-cap and link-only demotion -/

theorem postChunksFL_files (net : Net) (u : String) (av : Option String) :
    ∀ (cs : List String) (idx k : Nat) (prev : Option String),
      ∀ r ∈ (FL.postChunks net u av cs idx k prev).1, r.files = [] := by
  intro cs
  induction cs with
  | nil => intro idx k prev r hr; simp [FL.postChunks] at hr
  | cons c rest ih =>
    intro idx k prev r hr
    rw [FL.postChunks] at hr
    cases hp : net.post k with
    | error e =>
      simp only [hp] at hr
      simp at hr
      subst hr
      rfl
    | ok rid =>
      simp only [hp] at hr
      simp only [List.mem_cons] at hr
      rcases hr with rfl | hr
      · rfl
      · exact ih (idx + 1) (k + 1) (pyOrO rid prev) r hr

theorem postBatchesFL_files (net : Net) (u : String) (av : Option String) (msgId : String)
    (dest : Option String) (total : Nat) :
    ∀ (bs : List (List DownFile)) (bidx k : Nat),
      ∀ r ∈ (FL.postBatches net u av msgId dest total bs bidx k).1,
        ∃ b ∈ bs, r.files = mkForm b := by
  intro bs
  induction bs with
  | nil => intro bidx k r hr; simp [FL.postBatches] at hr
  | cons b rest ih =>
    intro bidx k r hr
    rw [FL.postBatches] at hr
    cases hp : net.post k with
    | error e =>
      simp only [hp] at hr
      simp at hr
      subst hr
      exact ⟨b, List.mem_cons_self b rest, rfl⟩
    | ok rid =>
      simp only [hp] at hr
      simp only [List.mem_cons] at hr
      rcases hr with rfl | hr
      · exact ⟨b, List.mem_cons_self b rest, rfl⟩
      · obtain ⟨b', hb', he⟩ := ih (bidx + 1) (k + 1) r hr
        exact ⟨b', List.mem_cons_of_mem b hb', he⟩

theorem mem_enum_snd {l : List α} {p : Nat × α} (h : p ∈ l.enum) : p.2 ∈ l :=
  List.snd_mem_of_mem_enum h

theorem mkForm_mem {batch : List DownFile} {fp : FilePart} (h : fp ∈ mkForm batch) :
    ∃ d ∈ batch, fp.filename = d.filename ∧ fp.bytes = d.bytes ∧ fp.ctype = d.ctype := by
  unfold mkForm at h
  obtain ⟨p, hp, rfl⟩ := List.mem_map.mp h
  exact ⟨p.2, mem_enum_snd hp, rfl, rfl, rfl⟩

theorem forwardFL_files (net : Net) (cap mfp : Nat) (msg : FL.NMsg)
    (idMap : String → Option String) (idIndex : Option (List (String × FL.IdxEntry))) (k : Nat) :
    ∀ r ∈ (FL.forwardOneMessage net cap mfp msg idMap idIndex k).sent, ∀ fp ∈ r.files,
      ∃ d ∈ (FL.classifyAtts net cap msg.attachments).1,
        fp.filename = d.filename ∧ fp.bytes = d.bytes ∧ fp.ctype = d.ctype := by
  intro r hr fp hfp
  simp only [FL.forwardOneMessage] at hr
  split at hr
  · -- downloadable files present
    split at hr
    · -- primary post raised
      simp only [List.mem_singleton] at hr
      subst hr
      obtain ⟨d, hd, h1, h2, h3⟩ := mkForm_mem hfp
      exact ⟨d, List.mem_of_mem_take hd, h1, h2, h3⟩
    · -- primary post returned
      split at hr
      · -- chained text post raised
        simp only [List.mem_cons] at hr
        rcases hr with rfl | hr
        · obtain ⟨d, hd, h1, h2, h3⟩ := mkForm_mem hfp
          exact ⟨d, List.mem_of_mem_take hd, h1, h2, h3⟩
        · rw [postChunksFL_files net msg.username msg.avatar_url _ _ _ _ r hr] at hfp
          simp at hfp
      · split at hr
        · -- remaining batches posted
          simp only [List.mem_append, List.mem_cons] at hr
          rcases hr with (rfl | hr) | hr
          · obtain ⟨d, hd, h1, h2, h3⟩ := mkForm_mem hfp
            exact ⟨d, List.mem_of_mem_take hd, h1, h2, h3⟩
          · rw [postChunksFL_files net msg.username msg.avatar_url _ _ _ _ r hr] at hfp
            simp at hfp
          · obtain ⟨b, hb, he⟩ := postBatchesFL_files net msg.username msg.avatar_url
              msg.id _ _ _ _ _ r hr
            rw [he] at hfp
            obtain ⟨d, hd, h1, h2, h3⟩ := mkForm_mem hfp
            exact ⟨d, List.mem_of_mem_drop (sliceList_mem_mem mfp hb hd), h1, h2, h3⟩
        · -- no remaining batches
          simp only [List.mem_cons] at hr
          rcases hr with rfl | hr
          · obtain ⟨d, hd, h1, h2, h3⟩ := mkForm_mem hfp
            exact ⟨d, List.mem_of_mem_take hd, h1, h2, h3⟩
          · rw [postChunksFL_files net msg.username msg.avatar_url _ _ _ _ r hr] at hfp
            simp at hfp
  · -- no downloadable files: no request carries a file part
    split at hr
    · simp only [List.mem_singleton] at hr
      subst hr
      simp at hfp
    · split at hr
      · simp only [List.mem_cons] at hr
        rcases hr with rfl | hr
        · simp at hfp
        · rw [postChunksFL_files net msg.username msg.avatar_url _ _ _ _ r hr] at hfp
          simp at hfp
      · simp only [List.mem_cons] at hr
        rcases hr with rfl | hr
        · simp at hfp
        · rw [postChunksFL_files net msg.username msg.avatar_url _ _ _ _ r hr] at hfp
          simp at hfp

end DCF

namespace DCF

theorem classifyOneFL_error_url {net : Net} {cap : Nat} {a : FL.NAtt} {u : String}
    (h : FL.classifyOne net cap a = .error u) : u = a.url := by
  simp only [FL.classifyOne] at h
  repeat' split at h
  all_goals simp_all

theorem classifyOneFL_ok_url {net : Net} {cap : Nat} {a : FL.NAtt} {d : DownFile}
    (h : FL.classifyOne net cap a = .ok d) : d.url = a.url := by
  simp only [FL.classifyOne] at h
  repeat' split at h
  all_goals first
    | (simp_all; done)
    | (cases h; rfl)

theorem classifyOneFL_demoted (net : Net) (cap : Nat) (a : FL.NAtt)
    (h : ((if a.size_hint ≠ 0 then a.size_hint else (net.headSize a.url).getD 0) ≠ 0 ∧
            cap < (if a.size_hint ≠ 0 then a.size_hint else (net.headSize a.url).getD 0)) ∨
         net.fetchLen a.url = none ∨
         (∃ nb, net.fetchLen a.url = some nb ∧ cap < nb)) :
    FL.classifyOne net cap a = .error a.url := by
  dsimp only [FL.classifyOne]
  rcases h with h | h | ⟨nb, h1, h2⟩
  · rw [if_pos h]
  · by_cases hs : ((if a.size_hint ≠ 0 then a.size_hint else (net.headSize a.url).getD 0) ≠ 0 ∧
        cap < (if a.size_hint ≠ 0 then a.size_hint else (net.headSize a.url).getD 0))
    · rw [if_pos hs]
    · rw [if_neg hs, h]
  · by_cases hs : ((if a.size_hint ≠ 0 then a.size_hint else (net.headSize a.url).getD 0) ≠ 0 ∧
        cap < (if a.size_hint ≠ 0 then a.size_hint else (net.headSize a.url).getD 0))
    · rw [if_pos hs]
    · rw [if_neg hs, h1]
      simp [h2]

theorem classifyAttsFL_spec (net : Net) (cap : Nat) : ∀ atts : List FL.NAtt,
    (FL.classifyAtts net cap atts).2 =
      (atts.filter (fun a => match FL.classifyOne net cap a with
        | .error _ => true | .ok _ => false)).map (fun a => a.url) ∧
    (FL.classifyAtts net cap atts).1.map (fun d => d.url) =
      (atts.filter (fun a => match FL.classifyOne net cap a with
        | .error _ => false | .ok _ => true)).map (fun a => a.url) := by
  intro atts
  induction atts with
  | nil => exact ⟨rfl, rfl⟩
  | cons a rest ih =>
    obtain ⟨ih1, ih2⟩ := ih
    cases h : FL.classifyOne net cap a with
    | error u =>
      have hu := classifyOneFL_error_url h
      subst hu
      constructor
      · simp [FL.classifyAtts, List.filterMap_cons, h, Except.toOption] at ih1 ⊢
        exact ih1
      · simp [FL.classifyAtts, List.filterMap_cons, h, Except.toOption] at ih2 ⊢
        exact ih2
    | ok d =>
      have hu := classifyOneFL_ok_url h
      constructor
      · simp [FL.classifyAtts, List.filterMap_cons, h, Except.toOption] at ih1 ⊢
        exact ih1
      · simp [FL.classifyAtts, List.filterMap_cons, h, hu, Except.toOption] at ih2 ⊢
        exact ih2

end DCF


namespace DCF

theorem classifyOneFO_error_url {net : Net} {cap : Nat} {a : FO.NAtt} {u : String}
    (h : FO.classifyOne net cap a = .error u) : u = a.url := by
  simp only [FO.classifyOne] at h
  repeat' split at h
  all_goals simp_all

theorem classifyOneFO_ok_url {net : Net} {cap : Nat} {a : FO.NAtt} {d : DownFile}
    (h : FO.classifyOne net cap a = .ok d) : d.url = a.url := by
  simp only [FO.classifyOne] at h
  repeat' split at h
  all_goals first
    | (simp_all; done)
    | (cases h; rfl)

theorem classifyOneFO_demoted (net : Net) (cap : Nat) (a : FO.NAtt)
    (h : ((if a.size_hint ≠ 0 then a.size_hint else (net.headSize a.url).getD 0) ≠ 0 ∧
            cap < (if a.size_hint ≠ 0 then a.size_hint else (net.headSize a.url).getD 0)) ∨
         net.fetchLen a.url = none ∨
         (∃ nb, net.fetchLen a.url = some nb ∧ cap < nb)) :
    FO.classifyOne net cap a = .error a.url := by
  dsimp only [FO.classifyOne]
  rcases h with h | h | ⟨nb, h1, h2⟩
  · rw [if_pos h]
  · by_cases hs : ((if a.size_hint ≠ 0 then a.size_hint else (net.headSize a.url).getD 0) ≠ 0 ∧
        cap < (if a.size_hint ≠ 0 then a.size_hint else (net.headSize a.url).getD 0))
    · rw [if_pos hs]
    · rw [if_neg hs, h]
  · by_cases hs : ((if a.size_hint ≠ 0 then a.size_hint else (net.headSize a.url).getD 0) ≠ 0 ∧
        cap < (if a.size_hint ≠ 0 then a.size_hint else (net.headSize a.url).getD 0))
    · rw [if_pos hs]
    · rw [if_neg hs, h1]
      simp [h2]

theorem classifyAttsFO_spec (net : Net) (cap : Nat) : ∀ atts : List FO.NAtt,
    (FO.classifyAtts net cap atts).2 =
      (atts.filter (fun a => match FO.classifyOne net cap a with
        | .error _ => true | .ok _ => false)).map (fun a => a.url) ∧
    (FO.classifyAtts net cap atts).1.map (fun d => d.url) =
      (atts.filter (fun a => match FO.classifyOne net cap a with
        | .error _ => false | .ok _ => true)).map (fun a => a.url) := by
  intro atts
  induction atts with
  | nil => exact ⟨rfl, rfl⟩
  | cons a rest ih =>
    obtain ⟨ih1, ih2⟩ := ih
    cases h : FO.classifyOne net cap a with
    | error u =>
      have hu := classifyOneFO_error_url h
      subst hu
      constructor
      · simp [FO.classifyAtts, List.filterMap_cons, h, Except.toOption] at ih1 ⊢
        exact ih1
      · simp [FO.classifyAtts, List.filterMap_cons, h, Except.toOption] at ih2 ⊢
        exact ih2
    | ok d =>
      have hu := classifyOneFO_ok_url h
      constructor
      · simp [FO.classifyAtts, List.filterMap_cons, h, Except.toOption] at ih1 ⊢
        exact ih1
      · simp [FO.classifyAtts, List.filterMap_cons, h, hu, Except.toOption] at ih2 ⊢
        exact ih2

theorem postBatchesFO_files (net : Net) (u : String) (av : Option String)
    (dest : Option String) :
    ∀ (bs : List (List DownFile)) (bidx k : Nat),
      ∀ r ∈ (FO.postBatches net u av dest bs bidx k).1,
        ∃ b ∈ bs, r.files = mkForm b := by
  intro bs
  induction bs with
  | nil => intro bidx k r hr; simp [FO.postBatches] at hr
  | cons b rest ih =>
    intro bidx k r hr
    rw [FO.postBatches] at hr
    cases hp : net.post k with
    | error e =>
      simp only [hp] at hr
      simp at hr
      subst hr
      exact ⟨b, List.mem_cons_self b rest, rfl⟩
    | ok rid =>
      simp only [hp] at hr
      simp only [List.mem_cons] at hr
      rcases hr with rfl | hr
      · exact ⟨b, List.mem_cons_self b rest, rfl⟩
      · obtain ⟨b', hb', he⟩ := ih (bidx + 1) (k + 1) r hr
        exact ⟨b', List.mem_cons_of_mem b hb', he⟩

theorem primaryAndBatchesFO_files (net : Net) (mfp : Nat) (u : String) (av : Option String)
    (basePayload : Payload) (down : List DownFile) (linkSuffix : String) (k : Nat) :
    ∀ r ∈ (FO.primaryAndBatches net mfp u av basePayload down linkSuffix k).1,
      ∀ fp ∈ r.files,
      ∃ d ∈ down, fp.filename = d.filename ∧ fp.bytes = d.bytes ∧ fp.ctype = d.ctype := by
  intro r hr fp hfp
  simp only [FO.primaryAndBatches] at hr
  split at hr
  · split at hr
    · simp only [List.mem_singleton] at hr
      subst hr
      obtain ⟨d, hd, h1, h2, h3⟩ := mkForm_mem hfp
      exact ⟨d, List.mem_of_mem_take hd, h1, h2, h3⟩
    · split at hr
      all_goals
        simp only [List.mem_cons] at hr
        rcases hr with rfl | hr
        · obtain ⟨d, hd, h1, h2, h3⟩ := mkForm_mem hfp
          exact ⟨d, List.mem_of_mem_take hd, h1, h2, h3⟩
        · obtain ⟨b, hb, he⟩ := postBatchesFO_files net u av _ _ _ _ r hr
          rw [he] at hfp
          obtain ⟨d, hd, h1, h2, h3⟩ := mkForm_mem hfp
          exact ⟨d, List.mem_of_mem_drop (sliceList_mem_mem mfp hb hd), h1, h2, h3⟩
  · split at hr
    all_goals
      simp only [List.mem_singleton] at hr
      subst hr
      simp at hfp

theorem forwardFO_files (net : Net) (cap mfp : Nat) (dryRun : Bool) (msg : FO.NMsg)
    (idMap : String → Option String) (k : Nat) :
    ∀ r ∈ (FO.forwardMessage net cap mfp dryRun msg idMap k).sent, ∀ fp ∈ r.files,
      ∃ d ∈ (FO.classifyAtts net cap msg.attachments).1,
        fp.filename = d.filename ∧ fp.bytes = d.bytes ∧ fp.ctype = d.ctype := by
  intro r hr fp hfp
  simp only [FO.forwardMessage] at hr
  split at hr
  · simp at hr
  · split at hr
    · try dsimp only at hr
      exact primaryAndBatchesFO_files net mfp msg.username msg.avatar_url _ _ _ _ r hr fp hfp
    · split at hr
      all_goals
        try dsimp only at hr
        rw [List.mem_append] at hr
        rcases hr with hr | hr
        · exact primaryAndBatchesFO_files net mfp msg.username msg.avatar_url _ _ _ _ r hr fp hfp
        · rw [postChunksFL_files net msg.username msg.avatar_url _ _ _ _ r hr] at hfp
          simp at hfp

end DCF

namespace DCF

theorem mkLinkLineFL_injective : Function.Injective FL.mkLinkLine := by
  intro u v huv
  unfold FL.mkLinkLine at huv
  have hd := congrArg String.data huv
  simp only [String.data_append] at hd
  have := List.append_cancel_left hd
  cases u
  cases v
  simpa using congrArg String.mk this

/-- C5: in both engines, an attachment whose effective size hint (given or
probed via HEAD) exceeds the cap, whose fetch fails, or whose actually
fetched byte length exceeds the cap, is demoted to link-only: its URL appears
exactly once in the link-only list (whose lines — `[Attachment too large] url`
resp. `Attachment: url` — are appended to the posted text, one line per
demoted attachment), it does not appear among the re-upload candidates, and
no delivery request of the message carries a file part derived from it (all
file parts come from re-upload candidates, none of which has its URL).
Demotion never raises: forwarding proceeds normally.  Attachment URLs are
assumed pairwise distinct within the message. -/
theorem c5_size_cap_link_only :
    (∀ (net : Net) (cap mfp k : Nat) (msg : FL.NMsg) (idMap : String → Option String)
        (idIndex : Option (List (String × FL.IdxEntry))) (a : FL.NAtt),
      a ∈ msg.attachments →
      (((if a.size_hint ≠ 0 then a.size_hint else (net.headSize a.url).getD 0) ≠ 0 ∧
          cap < (if a.size_hint ≠ 0 then a.size_hint else (net.headSize a.url).getD 0)) ∨
        net.fetchLen a.url = none ∨
        (∃ nb, net.fetchLen a.url = some nb ∧ cap < nb)) →
      (msg.attachments.map (fun x => x.url)).Nodup →
      a.url ∈ (FL.classifyAtts net cap msg.attachments).2 ∧
      (FL.classifyAtts net cap msg.attachments).2.count a.url = 1 ∧
      a.url ∉ (FL.classifyAtts net cap msg.attachments).1.map (fun d => d.url) ∧
      ((FL.classifyAtts net cap msg.attachments).2.map FL.mkLinkLine).count
        (FL.mkLinkLine a.url) = 1 ∧
      (∀ r ∈ (FL.forwardOneMessage net cap mfp msg idMap idIndex k).sent, ∀ fp ∈ r.files,
        ∃ d ∈ (FL.classifyAtts net cap msg.attachments).1,
          fp.filename = d.filename ∧ fp.bytes = d.bytes ∧ fp.ctype = d.ctype ∧
            d.url ≠ a.url)) ∧
    (∀ (net : Net) (cap mfp k : Nat) (dryRun : Bool) (msg : FO.NMsg)
        (idMap : String → Option String) (a : FO.NAtt),
      a ∈ msg.attachments →
      (((if a.size_hint ≠ 0 then a.size_hint else (net.headSize a.url).getD 0) ≠ 0 ∧
          cap < (if a.size_hint ≠ 0 then a.size_hint else (net.headSize a.url).getD 0)) ∨
        net.fetchLen a.url = none ∨
        (∃ nb, net.fetchLen a.url = some nb ∧ cap < nb)) →
      (msg.attachments.map (fun x => x.url)).Nodup →
      a.url ∈ (FO.classifyAtts net cap msg.attachments).2 ∧
      (FO.classifyAtts net cap msg.attachments).2.count a.url = 1 ∧
      a.url ∉ (FO.classifyAtts net cap msg.attachments).1.map (fun d => d.url) ∧
      (∀ r ∈ (FO.forwardMessage net cap mfp dryRun msg idMap k).sent, ∀ fp ∈ r.files,
        ∃ d ∈ (FO.classifyAtts net cap msg.attachments).1,
          fp.filename = d.filename ∧ fp.bytes = d.bytes ∧ fp.ctype = d.ctype ∧
            d.url ≠ a.url)) := by
  constructor
  · intro net cap mfp k msg idMap idIndex a ha hdem hnodup
    have hcls := classifyOneFL_demoted net cap a hdem
    obtain ⟨hlink, hdown⟩ := classifyAttsFL_spec net cap msg.attachments
    have hafilter : a ∈ msg.attachments.filter (fun a =>
        match FL.classifyOne net cap a with | .error _ => true | .ok _ => false) :=
      List.mem_filter.mpr ⟨ha, by rw [hcls]⟩
    have h1 : a.url ∈ (FL.classifyAtts net cap msg.attachments).2 := by
      rw [hlink]
      exact List.mem_map_of_mem _ hafilter
    have hnodup2 : (FL.classifyAtts net cap msg.attachments).2.Nodup := by
      rw [hlink]
      exact List.Nodup.sublist ((List.filter_sublist _).map _) hnodup
    have h2 : (FL.classifyAtts net cap msg.attachments).2.count a.url = 1 :=
      List.count_eq_one_of_mem hnodup2 h1
    have h3 : a.url ∉ (FL.classifyAtts net cap msg.attachments).1.map (fun d => d.url) := by
      intro hmem
      rw [hdown] at hmem
      obtain ⟨b, hbf, hbe⟩ := List.mem_map.mp hmem
      have hb := List.mem_filter.mp hbf
      have hab : b = a := List.inj_on_of_nodup_map hnodup hb.1 ha hbe
      have hkeep := hb.2
      rw [hab, hcls] at hkeep
      simp at hkeep
    refine ⟨h1, h2, ?_, ?_, ?_⟩
    · exact h3
    · rw [List.count_map_of_injective _ FL.mkLinkLine mkLinkLineFL_injective a.url]
      exact h2
    · intro r hr fp hfp
      obtain ⟨d, hd, f1, f2, f3⟩ :=
        forwardFL_files net cap mfp msg idMap idIndex k r hr fp hfp
      refine ⟨d, hd, f1, f2, f3, ?_⟩
      intro he
      exact h3 (he ▸ List.mem_map_of_mem (fun d => d.url) hd)
  · intro net cap mfp k dryRun msg idMap a ha hdem hnodup
    have hcls := classifyOneFO_demoted net cap a hdem
    obtain ⟨hlink, hdown⟩ := classifyAttsFO_spec net cap msg.attachments
    have hafilter : a ∈ msg.attachments.filter (fun a =>
        match FO.classifyOne net cap a with | .error _ => true | .ok _ => false) :=
      List.mem_filter.mpr ⟨ha, by rw [hcls]⟩
    have h1 : a.url ∈ (FO.classifyAtts net cap msg.attachments).2 := by
      rw [hlink]
      exact List.mem_map_of_mem _ hafilter
    have hnodup2 : (FO.classifyAtts net cap msg.attachments).2.Nodup := by
      rw [hlink]
      exact List.Nodup.sublist ((List.filter_sublist _).map _) hnodup
    have h2 : (FO.classifyAtts net cap msg.attachments).2.count a.url = 1 :=
      List.count_eq_one_of_mem hnodup2 h1
    have h3 : a.url ∉ (FO.classifyAtts net cap msg.attachments).1.map (fun d => d.url) := by
      intro hmem
      rw [hdown] at hmem
      obtain ⟨b, hbf, hbe⟩ := List.mem_map.mp hmem
      have hb := List.mem_filter.mp hbf
      have hab : b = a := List.inj_on_of_nodup_map hnodup hb.1 ha hbe
      have hkeep := hb.2
      rw [hab, hcls] at hkeep
      simp at hkeep
    refine ⟨h1, h2, h3, ?_⟩
    intro r hr fp hfp
    obtain ⟨d, hd, f1, f2, f3⟩ :=
      forwardFO_files net cap mfp dryRun msg idMap k r hr fp hfp
    refine ⟨d, hd, f1, f2, f3, ?_⟩
    intro he
    exact h3 (he ▸ List.mem_map_of_mem (fun d => d.url) hd)

end DCF

namespace DCF

/-- Witness for `c5_size_cap_link_only`: one attachment with a 300-byte size
hint against a 100-byte cap, in both engines. -/
theorem c5_size_cap_link_only_witness :
    ("http://x/a.png" ∈ (FL.classifyAtts
        { headSize := fun _ => none, fetchLen := fun _ => some 50, post := fun _ => .ok (some "D") }
        100 [{ url := "http://x/a.png", filename := "a.png", content_type := "image/png",
               size_hint := 300 }]).2) ∧
    ("http://x/a.png" ∉ (FO.classifyAtts
        { headSize := fun _ => none, fetchLen := fun _ => some 50, post := fun _ => .ok (some "D") }
        100 [{ url := "http://x/a.png", filename := "a.png", content_type := some "image/png",
               size_hint := 300 }]).1.map (fun d => d.url)) :=
  ⟨(c5_size_cap_link_only.1 { headSize := fun _ => none, fetchLen := fun _ => some 50, post := fun _ => .ok (some "D") }
      100 10 0
      { id := "m1", timestamp := none, content := "hi", username := "u", avatar_url := none,
        attachments := [{ url := "http://x/a.png", filename := "a.png",
                          content_type := "image/png", size_hint := 300 }],
        embeds := [], reply_to_id := none, reply_preview := none, jump_url := none }
      (fun _ => none) none ⟨"http://x/a.png", "a.png", "image/png", 300⟩
      (by decide) (Or.inl (by decide)) (by decide)).1,
   (c5_size_cap_link_only.2 { headSize := fun _ => none, fetchLen := fun _ => some 50, post := fun _ => .ok (some "D") }
      100 10 0 false
      { id := "m1", timestamp := "t", content := "hi", username := "u", avatar_url := none,
        attachments := [{ url := "http://x/a.png", filename := "a.png",
                          content_type := some "image/png", size_hint := 300 }],
        embeds := [], reply_to_id := none, reply_preview := none, jump_url := none }
      (fun _ => none) ⟨"http://x/a.png", "a.png", some "image/png", 300⟩
      (by decide) (Or.inl (by decide)) (by decide)).2.2.1⟩

end DCF


namespace DCF

/-! ### Claim C6 - chunking fidelity -/

theorem postChunksFL_contents (net : Net) (u : String) (av : Option String) :
    ∀ (cs : List String) (idx k : Nat) (prev : Option String),
      (FL.postChunks net u av cs idx k prev).2.1 = .ok () →
      (FL.postChunks net u av cs idx k prev).1.map (fun r => r.payload.content) =
        labelParts idx cs := by
  intro cs
  induction cs with
  | nil => intro idx k prev _; rfl
  | cons c rest ih =>
    intro idx k prev hok
    rw [FL.postChunks] at hok ⊢
    cases hp : net.post k with
    | error e =>
      simp only [hp] at hok
      simp at hok
    | ok rid =>
      simp only [hp] at hok ⊢
      rw [List.map_cons, ih (idx + 1) (k + 1) (pyOrO rid prev) hok]
      rfl

theorem postBatchesFL_contents (net : Net) (u : String) (av : Option String)
    (msgId : String) (dest : Option String) (total : Nat) :
    ∀ (bs : List (List DownFile)) (bidx k : Nat),
      (FL.postBatches net u av msgId dest total bs bidx k).2.1 = .ok () →
      (FL.postBatches net u av msgId dest total bs bidx k).1.map (fun r => r.payload.content) =
        labelBatchesFL msgId total bs.length bidx := by
  intro bs
  induction bs with
  | nil => intro bidx k _; rfl
  | cons b rest ih =>
    intro bidx k hok
    rw [FL.postBatches] at hok ⊢
    cases hp : net.post k with
    | error e =>
      simp only [hp] at hok
      simp at hok
    | ok rid =>
      simp only [hp] at hok ⊢
      rw [List.map_cons, ih (bidx + 1) (k + 1) hok]
      rfl

end DCF

namespace DCF

theorem forwardFL_sent_contents (net : Net) (cap mfp : Nat) (msg : FL.NMsg)
    (idMap : String → Option String) (idIndex : Option (List (String × FL.IdxEntry))) (k : Nat)
    (hok : (FL.forwardOneMessage net cap mfp msg idMap idIndex k).result ≠ .error ()) :
    (FL.forwardOneMessage net cap mfp msg idMap idIndex k).sent.map
        (fun r => r.payload.content) =
      (if pyStrip ((FL.chunksOf net cap idMap idIndex msg).headD "") = "" ∧
          (FL.replyPayload idMap idIndex msg).embeds = [] ∧
          (FL.classifyAtts net cap msg.attachments).1 = [] ∧
          (FL.classifyAtts net cap msg.attachments).2 = [] then "[no text]"
       else (FL.chunksOf net cap idMap idIndex msg).headD "") ::
      labelParts 2 (FL.chunksOf net cap idMap idIndex msg).tail ++
      labelBatchesFL msg.id
        ((((FL.classifyAtts net cap msg.attachments).1.drop mfp).length + mfp - 1) / mfp)
        (batchList ((FL.classifyAtts net cap msg.attachments).1.drop mfp) mfp).length 1 := by
  simp only [FL.forwardOneMessage] at hok ⊢
  by_cases hdown : (FL.classifyAtts net cap msg.attachments).1 ≠ []
  · simp only [if_pos hdown] at hok ⊢
    cases hp : net.post k with
    | error e =>
      simp only [hp] at hok
      exact absurd rfl hok
    | ok rid =>
      simp only [hp] at hok ⊢
      cases hc : (FL.postChunks net msg.username msg.avatar_url
          (FL.chunksOf net cap idMap idIndex msg).tail 2 (k + 1) rid).2.1 with
      | error e =>
        simp only [hc] at hok
        exact absurd rfl hok
      | ok u1 =>
        simp only [hc] at hok ⊢
        by_cases hrem : (FL.classifyAtts net cap msg.attachments).1.drop mfp ≠ []
        · simp only [if_pos hrem] at hok ⊢
          cases hb : (FL.postBatches net msg.username msg.avatar_url msg.id rid
              ((((FL.classifyAtts net cap msg.attachments).1.drop mfp).length + mfp - 1) / mfp)
              (batchList ((FL.classifyAtts net cap msg.attachments).1.drop mfp) mfp) 1
              (FL.postChunks net msg.username msg.avatar_url
                (FL.chunksOf net cap idMap idIndex msg).tail 2 (k + 1) rid).2.2).2.1 with
          | error e =>
            simp only [hb] at hok
            exact absurd rfl hok
          | ok u2 =>
            simp only [hb] at hok ⊢
            try dsimp only
            rw [List.map_append, List.map_cons]
            rw [postChunksFL_contents net msg.username msg.avatar_url _ _ _ _ hc]
            rw [postBatchesFL_contents net msg.username msg.avatar_url msg.id rid _ _ _ _ hb]
        · simp only [if_neg hrem] at hok ⊢
          rw [not_not] at hrem
          try dsimp only
          rw [List.map_cons]
          rw [postChunksFL_contents net msg.username msg.avatar_url _ _ _ _ hc]
          rw [hrem]
          simp [batchList, sliceList, sliceListF, labelBatchesFL]
  · simp only [if_neg hdown] at hok ⊢
    rw [not_not] at hdown
    cases hp : net.post k with
    | error e =>
      simp only [hp] at hok
      exact absurd rfl hok
    | ok rid =>
      simp only [hp] at hok ⊢
      cases hc : (FL.postChunks net msg.username msg.avatar_url
          (FL.chunksOf net cap idMap idIndex msg).tail 2 (k + 1) rid).2.1 with
      | error e =>
        simp only [hc] at hok
        exact absurd rfl hok
      | ok u1 =>
        simp only [hc] at hok ⊢
        try dsimp only
        rw [List.map_cons]
        rw [postChunksFL_contents net msg.username msg.avatar_url _ _ _ _ hc]
        rw [hdown]
        simp [batchList, sliceList, sliceListF, labelBatchesFL]

end DCF

namespace DCF

/-- C6, amended, for the `Loop_Forward` engine: the text segments are the
1900-char chunks of the assembled pre-chunk text (reply header + body + link
lines); they concatenate back to exactly that text, each is at most 1900
characters, and there is at least one.  On a run where no post raises, the
emitted posts' texts are: the first chunk (replaced by the placeholder
`[no text]` when it strips to empty and the message has no embeds, no
re-upload files and no links), then the remaining chunks each with its
` (part k)` suffix, then the attachment-batch posts with their batch labels.
Fidelity is thus to the assembled text (which includes link-summary lines),
not to header+body alone, and the wholly-empty message posts the placeholder
instead of its (empty) text. -/
theorem c6_chunking_fidelity (net : Net) (cap mfp : Nat) (msg : FL.NMsg)
    (idMap : String → Option String) (idIndex : Option (List (String × FL.IdxEntry))) (k : Nat)
    (hok : (FL.forwardOneMessage net cap mfp msg idMap idIndex k).result ≠ .error ()) :
    String.join (FL.chunksOf net cap idMap idIndex msg) =
      FL.contentFullOf net cap idMap idIndex msg ∧
    (∀ c ∈ FL.chunksOf net cap idMap idIndex msg, c.length ≤ 1900) ∧
    FL.chunksOf net cap idMap idIndex msg ≠ [] ∧
    (FL.forwardOneMessage net cap mfp msg idMap idIndex k).sent.map
        (fun r => r.payload.content) =
      (if pyStrip ((FL.chunksOf net cap idMap idIndex msg).headD "") = "" ∧
          (FL.replyPayload idMap idIndex msg).embeds = [] ∧
          (FL.classifyAtts net cap msg.attachments).1 = [] ∧
          (FL.classifyAtts net cap msg.attachments).2 = [] then "[no text]"
       else (FL.chunksOf net cap idMap idIndex msg).headD "") ::
      labelParts 2 (FL.chunksOf net cap idMap idIndex msg).tail ++
      labelBatchesFL msg.id
        ((((FL.classifyAtts net cap msg.attachments).1.drop mfp).length + mfp - 1) / mfp)
        (batchList ((FL.classifyAtts net cap msg.attachments).1.drop mfp) mfp).length 1 := by
  refine ⟨?_, ?_, ?_, forwardFL_sent_contents net cap mfp msg idMap idIndex k hok⟩
  · exact chunkText_join (FL.contentFullOf net cap idMap idIndex msg) 1900
  · exact chunkText_mem_length (FL.contentFullOf net cap idMap idIndex msg) 1900 (by norm_num)
  · exact chunkText_ne_nil (FL.contentFullOf net cap idMap idIndex msg) 1900

/-- C6, counterexample.  For a message with empty body, no reply, no
attachments and no embeds, the assembled header+body text is `""`, yet the
only emitted segment is the placeholder `[no text]`: concatenating the
emitted text segments does not reproduce the message's header+body text. -/
theorem c6_counterexample :
    (FL.forwardOneMessage
        { headSize := fun _ => none, fetchLen := fun _ => none, post := fun _ => .ok (some "D") }
        100 10
        { id := "m1", timestamp := none, content := "", username := "u", avatar_url := none,
          attachments := [], embeds := [], reply_to_id := none, reply_preview := none,
          jump_url := none }
        (fun _ => none) none 0).sent.map (fun r => r.payload.content) = ["[no text]"] ∧
    FL.contentFullOf
        { headSize := fun _ => none, fetchLen := fun _ => none, post := fun _ => .ok (some "D") }
        100 (fun _ => none) none
        { id := "m1", timestamp := none, content := "", username := "u", avatar_url := none,
          attachments := [], embeds := [], reply_to_id := none, reply_preview := none,
          jump_url := none } = "" ∧
    ("[no text]" : String) ≠ "" := ⟨by decide, by decide, by decide⟩

/-- Witness for `c6_chunking_fidelity`. -/
theorem c6_chunking_fidelity_witness :
    FL.chunksOf
      { headSize := fun _ => none, fetchLen := fun _ => none, post := fun _ => .ok (some "D") }
      100 (fun _ => none) none
      { id := "m1", timestamp := none, content := "hi", username := "u", avatar_url := none,
        attachments := [], embeds := [], reply_to_id := none, reply_preview := none,
        jump_url := none } ≠ [] :=
  (c6_chunking_fidelity
    { headSize := fun _ => none, fetchLen := fun _ => none, post := fun _ => .ok (some "D") }
    100 10
    { id := "m1", timestamp := none, content := "hi", username := "u", avatar_url := none,
      attachments := [], embeds := [], reply_to_id := none, reply_preview := none,
      jump_url := none }
    (fun _ => none) none 0 (fun h => Except.noConfusion h)).2.2.1

/-! ### Claim C4 — reply-resolution precedence -/

theorem strExt {s t : String} (h : s.data = t.data) : s = t :=
  congrArg String.mk h

theorem pyStrip_pre (q t : List Char)
    (hhead : ∃ x xs, q = x :: xs ∧ isSpaceChar x = false)
    (hlast : ∃ ys y, q = ys ++ [y] ∧ isSpaceChar y = false) :
    ∃ u, (pyStrip ⟨q ++ t⟩).data = q ++ u := by
  obtain ⟨x, xs, hq, hx⟩ := hhead
  obtain ⟨ys, y, hp, hy⟩ := hlast
  have h1 : List.dropWhile isSpaceChar (q ++ t) = q ++ t := by
    rw [hq, List.cons_append, List.dropWhile_cons]
    simp [hx]
  show ∃ u,
    ((List.dropWhile isSpaceChar
      ((List.dropWhile isSpaceChar (q ++ t)).reverse)).reverse) = q ++ u
  rw [h1]
  have hqrev : q.reverse = y :: ys.reverse := by
    rw [hp, List.reverse_append]
    rfl
  by_cases ht : List.dropWhile isSpaceChar t.reverse = []
  · have h2 : List.dropWhile isSpaceChar ((q ++ t).reverse) = q.reverse := by
      rw [List.reverse_append, List.dropWhile_append, ht]
      simp only [List.isEmpty_nil, if_true]
      rw [hqrev, List.dropWhile_cons]
      simp [hy]
    rw [h2, List.reverse_reverse]
    exact ⟨[], by simp⟩
  · have h2 : List.dropWhile isSpaceChar ((q ++ t).reverse) =
        List.dropWhile isSpaceChar t.reverse ++ q.reverse := by
      rw [List.reverse_append, List.dropWhile_append]
      simp [List.isEmpty_iff, ht]
    rw [h2, List.reverse_append, List.reverse_reverse]
    exact ⟨(List.dropWhile isSpaceChar t.reverse).reverse, rfl⟩

theorem mkQuoteLine_head (a c : String) :
    ∃ xs, (FL.mkQuoteLine a c).data = '>' :: xs := by
  unfold FL.mkQuoteLine
  refine ⟨(" Quote " : String).data ++ (a.data ++ ((": \"" : String).data ++
    ((firstN c 180).data ++ ("\"" : String).data))), ?_⟩
  simp only [String.data_append, List.append_assoc]
  rfl

theorem mkQuoteLine_last (a c : String) :
    ∃ ys, (FL.mkQuoteLine a c).data = ys ++ ['"'] := by
  unfold FL.mkQuoteLine
  refine ⟨("> Quote " ++ a ++ ": \"" ++ firstN c 180).data, ?_⟩
  simp only [String.data_append, List.append_assoc]

theorem pyOrS_empty_right (s : String) : pyOrS s "" = s := by
  unfold pyOrS
  by_cases h : s = ""
  · rw [if_pos h, h]
  · rw [if_neg h]

theorem pyOrS_unknown (s : String) : pyOrS (pyOrS s "Unknown") "unknown" = pyOrS s "Unknown" := by
  unfold pyOrS
  by_cases h : s = ""
  · rw [if_pos h]
    rw [if_neg (by decide)]
  · rw [if_neg h, if_neg h]

theorem applyReply_quote (idMap : String → Option String)
    (idIndex : Option (List (String × FL.IdxEntry))) (msg : FL.NMsg) (base : Payload)
    (p : String) (hp : msg.reply_to_id = some p) (hpne : p ≠ "")
    (hf : truthy (idMap p) = false) :
    (FL.applyReply idMap idIndex msg base).message_reference = base.message_reference ∧
    ∃ u, (FL.applyReply idMap idIndex msg base).content.data =
      (FL.mkQuoteLine (FL.qpAuthorOf idIndex msg p) (FL.qpContentOf idIndex msg p)).data ++ u := by
  have hhead : ∃ x xs,
      (FL.mkQuoteLine (FL.qpAuthorOf idIndex msg p) (FL.qpContentOf idIndex msg p)).data
        = x :: xs ∧ isSpaceChar x = false := by
    obtain ⟨xs, hx⟩ := mkQuoteLine_head (FL.qpAuthorOf idIndex msg p) (FL.qpContentOf idIndex msg p)
    exact ⟨'>', xs, hx, by decide⟩
  have hlast : ∃ ys y,
      (FL.mkQuoteLine (FL.qpAuthorOf idIndex msg p) (FL.qpContentOf idIndex msg p)).data
        = ys ++ [y] ∧ isSpaceChar y = false := by
    obtain ⟨ys, hy⟩ := mkQuoteLine_last (FL.qpAuthorOf idIndex msg p) (FL.qpContentOf idIndex msg p)
    exact ⟨ys, '"', hy, by decide⟩
  simp only [FL.applyReply, hp]
  rw [if_neg hpne, if_neg (by simp [hf])]
  refine ⟨rfl, ?_⟩
  by_cases hj : truthy msg.jump_url = true
  · simp only [hj, if_true]
    have hX :
        (FL.mkQuoteLine (FL.qpAuthorOf idIndex msg p) (FL.qpContentOf idIndex msg p) ++ "\n> " ++
            msg.jump_url.getD "" ++
          (if pyStrip base.content ≠ "" then "\n\n" ++ pyStrip base.content else "")) =
        ⟨(FL.mkQuoteLine (FL.qpAuthorOf idIndex msg p) (FL.qpContentOf idIndex msg p)).data ++
          (("\n> " : String).data ++ ((msg.jump_url.getD "").data ++
            (if pyStrip base.content ≠ "" then "\n\n" ++ pyStrip base.content else "").data))⟩ := by
      apply strExt
      simp [String.data_append, List.append_assoc]
    rw [hX]
    exact pyStrip_pre _ _ hhead hlast
  · simp only [Bool.not_eq_true] at hj
    simp only [hj, Bool.false_eq_true, if_false]
    have hX :
        (FL.mkQuoteLine (FL.qpAuthorOf idIndex msg p) (FL.qpContentOf idIndex msg p) ++
          (if pyStrip base.content ≠ "" then "\n\n" ++ pyStrip base.content else "")) =
        ⟨(FL.mkQuoteLine (FL.qpAuthorOf idIndex msg p) (FL.qpContentOf idIndex msg p)).data ++
          (if pyStrip base.content ≠ "" then "\n\n" ++ pyStrip base.content else "").data⟩ := by
      apply strExt
      simp [String.data_append]
    rw [hX]
    exact pyStrip_pre _ _ hhead hlast

theorem forwardFL_head (net : Net) (cap mfp : Nat) (msg : FL.NMsg)
    (idMap : String → Option String) (idIndex : Option (List (String × FL.IdxEntry))) (k : Nat) :
    ∃ r rest, (FL.forwardOneMessage net cap mfp msg idMap idIndex k).sent = r :: rest ∧
      r.payload.message_reference = (FL.replyPayload idMap idIndex msg).message_reference := by
  simp only [FL.forwardOneMessage]
  repeat' split
  all_goals exact ⟨_, _, rfl, rfl⟩

theorem forwardFO_head (net : Net) (cap mfp : Nat) (msg : FO.NMsg)
    (idMap : String → Option String) (k : Nat) (p : String)
    (hp : msg.reply_to_id = some p) (hpne : p ≠ "") (ht : truthy (idMap p) = true) :
    ∃ r rest, (FO.forwardMessage net cap mfp false msg idMap k).sent = r :: rest ∧
      r.payload.message_reference = idMap p := by
  simp only [FO.forwardMessage, FO.primaryAndBatches, hp]
  rw [if_pos hpne]
  simp only [ht, if_true]
  repeat' split
  all_goals first
  | exact ⟨_, _, rfl, rfl⟩
  | simp_all

/-- **C4** (amended): reply resolution applies exactly one of the header
strategies, with different fallback ladders in the two engines.  In
`forward_loop.py`: when the identity map resolves the parent id the payload
carries a native `message_reference` and the content is untouched (and the
primary delivery request carries that reference); otherwise the reference
stays absent and the content begins with a quote line built from the reply
preview when present, else from the current batch's id index, else the
generic `> Quote unknown: ""` line.  In `forward_once.py`: a resolved parent
gives the primary request a native reference and an empty header; otherwise
the header is the preview string when present, else the generic
`(replying to an earlier message)` line — `forward_once.py` has NO
batch-index fallback. -/
theorem c4_reply_resolution (net : Net) (cap mfp k : Nat)
    (idMap : String → Option String) (idIndex : Option (List (String × FL.IdxEntry)))
    (msg : FL.NMsg) (p : String) (hp : msg.reply_to_id = some p) (hpne : p ≠ "")
    (msg2 : FO.NMsg) (p2 : String) (hp2 : msg2.reply_to_id = some p2) (hp2ne : p2 ≠ "")
    (idMap2 : String → Option String) (k2 : Nat) :
    (truthy (idMap p) = true →
      (FL.replyPayload idMap idIndex msg).message_reference = idMap p ∧
      (FL.replyPayload idMap idIndex msg).content = (FL.buildPayloadBase msg).content ∧
      ∃ r rest, (FL.forwardOneMessage net cap mfp msg idMap idIndex k).sent = r :: rest ∧
        r.payload.message_reference = idMap p) ∧
    (truthy (idMap p) = false →
      (FL.replyPayload idMap idIndex msg).message_reference = none ∧
      ((∃ pv, msg.reply_preview = some pv ∧
         ∃ u, (FL.replyPayload idMap idIndex msg).content.data =
           (FL.mkQuoteLine (pyStrip (pyOrS pv.author "unknown")) (pyStrip pv.content)).data ++ u) ∨
       (msg.reply_preview = none ∧ (∃ e, FL.idIndexHit idIndex p = some e ∧
         ∃ u, (FL.replyPayload idMap idIndex msg).content.data =
           (FL.mkQuoteLine (pyStrip (pyOrS e.author "Unknown")) (pyStrip e.content)).data ++ u)) ∨
       (msg.reply_preview = none ∧ FL.idIndexHit idIndex p = none ∧
         ∃ u, (FL.replyPayload idMap idIndex msg).content.data =
           (FL.mkQuoteLine "unknown" "").data ++ u))) ∧
    (truthy (idMap2 p2) = true →
      FO.headerOf idMap2 msg2 = "" ∧
      ∃ r rest, (FO.forwardMessage net cap mfp false msg2 idMap2 k2).sent = r :: rest ∧
        r.payload.message_reference = idMap2 p2) ∧
    (truthy (idMap2 p2) = false → truthy msg2.reply_preview = true →
      FO.headerOf idMap2 msg2 = msg2.reply_preview.getD "" ++ "\n") ∧
    (truthy (idMap2 p2) = false → truthy msg2.reply_preview = false →
      FO.headerOf idMap2 msg2 = "(replying to an earlier message)\n") := by
  refine ⟨?_, ?_, ?_, ?_, ?_⟩
  · -- forward_loop, native reference
    intro ht
    have hnat : (FL.replyPayload idMap idIndex msg).message_reference = idMap p ∧
        (FL.replyPayload idMap idIndex msg).content = (FL.buildPayloadBase msg).content := by
      simp only [FL.replyPayload, FL.applyReply, hp]
      rw [if_neg hpne, if_pos ht]
      exact ⟨rfl, rfl⟩
    obtain ⟨r, rest, hr, href⟩ := forwardFL_head net cap mfp msg idMap idIndex k
    exact ⟨hnat.1, hnat.2, r, rest, hr, by rw [href, hnat.1]⟩
  · -- forward_loop, quote-line fallback ladder
    intro hf
    obtain ⟨href, u, hu⟩ :=
      applyReply_quote idMap idIndex msg (FL.buildPayloadBase msg) p hp hpne hf
    refine ⟨by simp only [FL.replyPayload]; rw [href]; rfl, ?_⟩
    simp only [FL.replyPayload]
    cases hpv : msg.reply_preview with
    | some pv =>
      have ha : FL.qpAuthorOf idIndex msg p = pyStrip (pyOrS pv.author "unknown") := by
        simp only [FL.qpAuthorOf, FL.qpOf, hpv]
        rfl
      have hc : FL.qpContentOf idIndex msg p = pyStrip pv.content := by
        simp only [FL.qpContentOf, FL.qpOf, hpv]
        rw [show ((some (pv.author, pv.content)).map Prod.snd).getD "" = pv.content from rfl]
        rw [pyOrS_empty_right]
      rw [ha, hc] at hu
      exact Or.inl ⟨pv, rfl, u, hu⟩
    | none =>
      cases he : FL.idIndexHit idIndex p with
      | some e =>
        have ha : FL.qpAuthorOf idIndex msg p = pyStrip (pyOrS e.author "Unknown") := by
          simp only [FL.qpAuthorOf, FL.qpOf, hpv, he]
          rw [show ((some (pyOrS e.author "Unknown", pyOrS e.content "")).map Prod.fst).getD ""
              = pyOrS e.author "Unknown" from rfl]
          rw [pyOrS_unknown]
        have hc : FL.qpContentOf idIndex msg p = pyStrip e.content := by
          simp only [FL.qpContentOf, FL.qpOf, hpv, he]
          rw [show ((some (pyOrS e.author "Unknown", pyOrS e.content "")).map Prod.snd).getD ""
              = pyOrS e.content "" from rfl]
          rw [pyOrS_empty_right, pyOrS_empty_right]
        rw [ha, hc] at hu
        exact Or.inr (Or.inl ⟨rfl, e, rfl, u, hu⟩)
      | none =>
        have ha : FL.qpAuthorOf idIndex msg p = "unknown" := by
          simp only [FL.qpAuthorOf, FL.qpOf, hpv, he]
          decide
        have hc : FL.qpContentOf idIndex msg p = "" := by
          simp only [FL.qpContentOf, FL.qpOf, hpv, he]
          decide
        rw [ha, hc] at hu
        exact Or.inr (Or.inr ⟨rfl, rfl, u, hu⟩)
  · -- forward_once, native reference
    intro ht
    have hh : FO.headerOf idMap2 msg2 = "" := by
      simp only [FO.headerOf, hp2]
      rw [if_pos hp2ne]
      rw [if_neg (by simp [ht]), if_neg (by simp [ht])]
    exact ⟨hh, forwardFO_head net cap mfp msg2 idMap2 k2 p2 hp2 hp2ne ht⟩
  · -- forward_once, preview header
    intro hf hpv
    simp only [FO.headerOf, hp2]
    rw [if_pos hp2ne]
    rw [if_pos ⟨by simp [truthy, hp2ne], by simp [hf], hpv⟩]
  · -- forward_once, generic placeholder
    intro hf hpv
    simp only [FO.headerOf, hp2]
    rw [if_pos hp2ne]
    rw [if_neg (by simp [hpv]), if_pos ⟨by simp [truthy, hp2ne], by simp [hf]⟩]

/-- **C4** (counterexample to the frozen claim): in `forward_once.py` there is
no same-batch index fallback.  On a two-message artifact whose second message
replies to the first, with webhook responses that yield no destination id,
`forward_once.py` posts the generic `(replying to an earlier message)` header
even though the parent and its content sit in the same batch — while
`forward_loop.py` on the same artifact posts a quote line with the parent's
author and content from its batch index. -/
theorem c4_counterexample :
    (FO.normalizeExport [rawPC4, rawCC4]).map (fun m => (m.id, m.content, m.reply_to_id)) =
      [("a", "hello", none), ("b", "hi", some "a")] ∧
    (FO.pipeline netC4 "now" 100 10 false [rawPC4, rawCC4] (fun _ => none)
        (fun _ => none)).1.map (fun r => (r.payload.content, r.payload.message_reference)) =
      [("hello", none), ("(replying to an earlier message)\nhi", none)] ∧
    (FL.pipeline netC4 "now" 100 10 [rawPC4, rawCC4] (fun _ => none)
        (fun _ => none)).1.map (fun r => (r.payload.content, r.payload.message_reference)) =
      [("hello", none), ("> Quote alice: \"hello\"\n\nhi", none)] := by
  have hsort : FL.normalizedOf [rawPC4, rawCC4] =
      [FL.normalizeMessage rawPC4, FL.normalizeMessage rawCC4] := by
    have h1 : ([rawPC4, rawCC4].filter (fun m => truthy m.id)).map FL.normalizeMessage
        = [FL.normalizeMessage rawPC4, FL.normalizeMessage rawCC4] := rfl
    simp only [FL.normalizedOf, h1]
    exact List.mergeSort_of_sorted (by decide)
  refine ⟨rfl, rfl, ?_⟩
  simp only [FL.pipeline, hsort]
  rfl

theorem c4_reply_resolution_witness :
    (FL.normalizeMessage rawCC4).reply_to_id = some "a" ∧
    (FO.normalizeOne rawCC4).reply_to_id = some "a" ∧
    ("a" : String) ≠ "" ∧
    truthy ((fun (_ : String) => (none : Option String)) "a") = false ∧
    truthy (FO.normalizeOne rawCC4).reply_preview = false ∧
    FO.headerOf (fun _ => none) (FO.normalizeOne rawCC4) = "(replying to an earlier message)\n" := by
  refine ⟨rfl, rfl, by decide, rfl, rfl, ?_⟩
  exact (c4_reply_resolution netC4 100 10 0 (fun _ => none)
      (some (FL.buildIdIndex [rawPC4, rawCC4])) (FL.normalizeMessage rawCC4) "a" rfl (by decide)
      (FO.normalizeOne rawCC4) "a" rfl (by decide) (fun _ => none) 0).2.2.2.2 rfl rfl

end DCF
